import Mathlib

/-!
# RelayNode: the per-connection core of `serverprocess.h`

A shallow embedding of the shared connection machinery that
`src/c++/serverprocess.h` pastes into every server connection class:
the disconnect flag word, the two disconnect entry points, the destructor
body and the writer loop `net_write`.

Conventions of the embedding

* `disconnectFlags` (a `std::atomic<int>`) is a natural number; `fetch_or`
  and `|=` are `|||`, a test `flags & MASK` is `flags &&& MASK ≠ 0`.
* `total_waiting_size` (a `uint32_t`) is a natural number, reduced modulo
  `2 ^ 32` where the source subtracts from it.
* A message (`std::vector<unsigned char>`) is a list of bytes; its `size()`
  is the length of the list.
* Calls the code makes on the outside world (`printf`, `shutdown`, `join`,
  `notify_all`, `usleep`, `send_all`, `close`, `delete`) are recorded, in
  order, in a trace carried by the state.
* `assert` is modelled with assertions enabled: a failing assertion aborts,
  which is the result `none`.
-/

namespace RelayNode

/-! ## Data model -/

def DISCONNECT_STARTED : Nat := 1
def DISCONNECT_PRINT_AND_CLOSE : Nat := 2
def DISCONNECT_FROM_WRITE_THREAD : Nat := 4
def DISCONNECT_FROM_READ_THREAD : Nat := 8
def DISCONNECT_COMPLETE : Nat := 16

/-- An outbound message, `std::vector<unsigned char>`. -/
abbrev Msg := List (Fin 256)

/-- Calls on the outside world, as they appear in the source. -/
inductive Event where
  /-- The diagnostic `printf("%s Disconnect: %s (%s)\n", ...)` with its reason. -/
  | print (reason : String)
  /-- The half-close `shutdown(sock, SHUT_RDWR)`. -/
  | shutdown_rdwr
  /-- The call `read_thread->join()`. -/
  | join_read
  /-- The call `write_thread->join()`. -/
  | join_write
  /-- The call `cv.notify_all()`. -/
  | notify_all
  /-- The call `usleep(us)`. -/
  | usleep (us : Nat)
  /-- The call `send_all(sock, &(*msg)[0], msg->size())`. -/
  | send_all (msg : Msg)
  /-- The call `close(sock)`. -/
  | close_sock
  /-- The statement `delete read_thread`. -/
  | delete_read
  /-- The statement `delete write_thread`. -/
  | delete_write
  deriving DecidableEq, Repr

/-- The member variables of `SERVER_DECLARE_CLASS_VARS` that the disconnect
protocol and the writer loop read or write, together with the trace of
outside calls made so far. -/
structure Connection where
  disconnectFlags : Nat
  outbound_secondary_queue : List Msg
  outbound_primary_queue : List Msg
  initial_outbound_throttle : Bool
  total_waiting_size : Nat
  trace : List Event
  deriving DecidableEq, Repr

/-- The member initialisers of `SERVER_DECLARE_CONSTRUCTOR_EXTENDS_AND_BODY`. -/
def construct : Connection :=
  { disconnectFlags := 0
    outbound_secondary_queue := []
    outbound_primary_queue := []
    initial_outbound_throttle := true
    total_waiting_size := 0
    trace := [] }

/-- Record one outside call. -/
def Connection.emit (c : Connection) (e : Event) : Connection :=
  { c with trace := c.trace ++ [e] }

/-- The test `flags & MASK` of the source, as a condition. -/
def has_flag (flags mask : Nat) : Bool := flags &&& mask != 0

/-- Bit `i` of a flag word; the five masks are the bits 0 to 4. -/
def flag_bit (flags i : Nat) : Bool := flags.testBit i

/-- The atomic `disconnectFlags.fetch_or(bits)`: the old value and the new state. -/
def fetch_or (c : Connection) (bits : Nat) : Nat × Connection :=
  (c.disconnectFlags, { c with disconnectFlags := c.disconnectFlags ||| bits })

/-- The number of diagnostic lines printed so far. -/
def prints (c : Connection) : Nat :=
  c.trace.countP fun e => match e with
    | .print _ => true
    | _ => false

/-- The number of `shutdown(sock, SHUT_RDWR)` calls made so far. -/
def half_closes (c : Connection) : Nat := c.trace.count .shutdown_rdwr

/-- The number of `read_thread->join()` calls made so far. -/
def read_joins (c : Connection) : Nat := c.trace.count .join_read

/-- The number of `write_thread->join()` calls made so far. -/
def write_joins (c : Connection) : Nat := c.trace.count .join_write

/-- The messages passed to `send_all` so far, oldest first. -/
def sent (c : Connection) : List Msg :=
  c.trace.filterMap fun e => match e with
    | .send_all m => some m
    | _ => none

/-- The number of `usleep` calls made so far. -/
def delays (c : Connection) : Nat :=
  c.trace.countP fun e => match e with
    | .usleep _ => true
    | _ => false

/-- The sum of the lengths of the messages held in both outbound queues. -/
def queued_bytes (c : Connection) : Nat :=
  (c.outbound_primary_queue.map List.length).sum +
    (c.outbound_secondary_queue.map List.length).sum

/-! ## The disconnect coordinator -/

/-- The body that follows a `fetch_or(DISCONNECT_PRINT_AND_CLOSE)` that found
the bit clear: `printf(...)` then `shutdown(sock, SHUT_RDWR)`. -/
def print_and_shutdown (reason : String) (c : Connection) : Connection :=
  (c.emit (.print reason)).emit .shutdown_rdwr

/-- The function `disconnect_from_outside(reason)`. -/
def disconnect_from_outside (reason : String) (c : Connection) : Connection :=
  let r := fetch_or c DISCONNECT_PRINT_AND_CLOSE
  if has_flag r.1 DISCONNECT_PRINT_AND_CLOSE then r.2
  else print_and_shutdown reason r.2

/-- First statement of `disconnect`: `fetch_or(DISCONNECT_STARTED)`; the
boolean says whether the call goes on (the bit was clear) or returns. -/
def disconnect_start (c : Connection) : Bool × Connection :=
  let r := fetch_or c DISCONNECT_STARTED
  (!has_flag r.1 DISCONNECT_STARTED, r.2)

/-- Second statement of `disconnect`: `fetch_or(DISCONNECT_PRINT_AND_CLOSE)`,
printing and half-closing if the bit was clear. -/
def disconnect_print_and_close (reason : String) (c : Connection) : Connection :=
  let r := fetch_or c DISCONNECT_PRINT_AND_CLOSE
  if !has_flag r.1 DISCONNECT_PRINT_AND_CLOSE then print_and_shutdown reason r.2
  else r.2

/-- The one-byte vector `std::vector<unsigned char>(1)` pushed to wake the writer. -/
def wake_message : Msg := List.replicate 1 0

/-- The block "Wake up the write thread": push the wake message on the
secondary queue and `cv.notify_all()`. -/
def wake_write_thread (c : Connection) : Connection :=
  ({ c with outbound_secondary_queue := c.outbound_secondary_queue ++ [wake_message] }).emit
    .notify_all

/-- The branch on the caller in `disconnect`, up to but not including the
`join`: mark the calling side and, on the reader, wake the writer.
`is_reader` is `std::this_thread::get_id() == read_thread->get_id()`. -/
def disconnect_mark (is_reader : Bool) (c : Connection) : Connection :=
  if !is_reader then (fetch_or c DISCONNECT_FROM_WRITE_THREAD).2
  else wake_write_thread (fetch_or c DISCONNECT_FROM_READ_THREAD).2

/-- The `join` of the other worker in `disconnect`. -/
def disconnect_join (is_reader : Bool) (c : Connection) : Connection :=
  if !is_reader then c.emit .join_read else c.emit .join_write

/-- The tail of `disconnect`: clear both queues, then `|= DISCONNECT_COMPLETE`. -/
def disconnect_finish (c : Connection) : Connection :=
  (fetch_or { c with outbound_secondary_queue := [], outbound_primary_queue := [] }
    DISCONNECT_COMPLETE).2

/-- The state in which a call of `disconnect` that found
`DISCONNECT_STARTED` clear reaches its `join`. -/
def disconnect_to_join (reason : String) (is_reader : Bool) (c : Connection) : Connection :=
  disconnect_mark is_reader (disconnect_print_and_close reason (disconnect_start c).2)

/-- The function `disconnect(reason)`, run without interruption. -/
def disconnect (reason : String) (is_reader : Bool) (c : Connection) : Connection :=
  let r := disconnect_start c
  if !r.1 then r.2
  else
    disconnect_finish (disconnect_join is_reader (disconnect_to_join reason is_reader c))

/-- The body `SERVER_DECLARE_DESTRUCTOR`; `none` is an abort by a failed
assertion. The first assertion tests the constant `DISCONNECT_COMPLETE`. -/
def destructor (c : Connection) : Option Connection :=
  if DISCONNECT_COMPLETE = 0 then none
  else
    let joined : Option Connection :=
      if has_flag c.disconnectFlags DISCONNECT_FROM_WRITE_THREAD then some (c.emit .join_write)
      else if has_flag c.disconnectFlags DISCONNECT_FROM_READ_THREAD then
        some (c.emit .join_read)
      else none
    joined.map fun d => ((d.emit .close_sock).emit .delete_read).emit .delete_write

/-! ## The writer loop -/

/-- The pop of `net_write`: the front of the primary queue if it is not
empty, else the front of the secondary queue. -/
def pop_message (c : Connection) : Option (Msg × Connection) :=
  match c.outbound_primary_queue with
  | m :: rest => some (m, { c with outbound_primary_queue := rest })
  | [] =>
    match c.outbound_secondary_queue with
    | m :: rest => some (m, { c with outbound_secondary_queue := rest })
    | [] => none

/-- The accounting after the pop: `total_waiting_size -= msg->size()` on a
`uint32_t`, then the throttle policy. -/
def account (m : Msg) (c : Connection) : Connection :=
  let t := (((c.total_waiting_size : Int) - (m.length : Int)) % 4294967296).toNat
  let d := { c with total_waiting_size := t }
  if t = 0 then { d with initial_outbound_throttle := false }
  else if d.initial_outbound_throttle then d.emit (.usleep (20 * 1000))
  else d

/-- The dequeue step of `net_write`: the pop followed by the accounting. -/
def dequeue (c : Connection) : Option (Msg × Connection) :=
  (pop_message c).map fun r => (r.1, account r.1 r.2)

/-- What the writer finds when it holds the lock. -/
inductive Wake where
  /-- Both queues are empty: the writer stays in `cv.wait`. -/
  | wait
  /-- Some disconnect flag is set. -/
  | stop
  /-- A message was dequeued. -/
  | message (m : Msg)
  deriving DecidableEq, Repr

/-- The critical section of one iteration of `net_write`. -/
def net_write_locked (c : Connection) : Wake × Connection :=
  if c.outbound_secondary_queue.length = 0 ∧ c.outbound_primary_queue.length = 0 then
    (.wait, c)
  else if c.disconnectFlags ≠ 0 then (.stop, c)
  else
    match dequeue c with
    | some (m, d) => (.message m, d)
    | none => (.wait, c)

/-- How one iteration of `net_write` ends. -/
inductive Outcome where
  /-- Blocked in `cv.wait` with both queues empty. -/
  | waiting
  /-- The function returned, after calling `disconnect`. -/
  | returned
  /-- The iteration completed; the loop goes round again. -/
  | looping
  deriving DecidableEq, Repr

/-- One iteration of the loop of `net_write`, on the writer thread;
`send_result m` is what `send_all` returns for `m` in this iteration. -/
def net_write_iter (send_result : Msg → Int) (c : Connection) : Outcome × Connection :=
  match net_write_locked c with
  | (.wait, d) => (.waiting, d)
  | (.stop, d) => (.returned, disconnect "disconnect started elsewhere" false d)
  | (.message m, d) =>
    let e := d.emit (.send_all m)
    if send_result m ≠ (m.length : Int) then (.returned, disconnect "failed to send msg" false e)
    else (.looping, e)

/-- The loop of `net_write`, for at most `fuel` iterations; `send_result i`
is the behaviour of `send_all` in the iteration `i` steps from now. -/
def net_write (send_result : Nat → Msg → Int) : Nat → Connection → Outcome × Connection
  | 0, c => (.looping, c)
  | fuel + 1, c =>
    match net_write_iter (send_result 0) c with
    | (.looping, d) => net_write (fun i => send_result (i + 1)) fuel d
    | r => r

/-- Modelled from the spec: the enqueue operation of the concrete connection
classes, which is not part of `serverprocess.h`. It appends the message to
the primary or the secondary queue under the shared lock, increments the
waiting size and signals the condition variable. -/
def enqueue (primary : Bool) (m : Msg) (c : Connection) : Connection :=
  let d : Connection :=
    if primary then { c with outbound_primary_queue := c.outbound_primary_queue ++ [m] }
    else { c with outbound_secondary_queue := c.outbound_secondary_queue ++ [m] }
  ({ d with total_waiting_size := (d.total_waiting_size + m.length) % 4294967296 }).emit
    .notify_all

/-! ## Interleaved execution

Calls of `disconnect` and `disconnect_from_outside` made by several threads
are interleaved at their atomic read-modify-write operations on
`disconnectFlags`: one step of a call is one such operation together with
the code of the same call that follows it, up to the next one (for the third
step of `disconnect`, up to and including the `join`). -/

/-- Where a call stands. -/
inductive Pc where
  /-- Not started. -/
  | entry
  /-- In `disconnect`, after `fetch_or(DISCONNECT_STARTED)` found the bit clear. -/
  | started
  /-- In `disconnect`, after the print-and-close statement. -/
  | closed
  /-- In `disconnect`, after the `join`. -/
  | joined
  /-- The call returned. -/
  | returned
  deriving DecidableEq, Repr

/-- Which entry point a call is for; `is_reader` says whether the calling
thread is the reader thread. -/
inductive Kind where
  | from_outside
  | full (is_reader : Bool)
  deriving DecidableEq, Repr

/-- A call in progress. -/
structure Call where
  kind : Kind
  reason : String
  pc : Pc
  deriving DecidableEq, Repr

/-- One step of a call. -/
def Call.advance (k : Call) (c : Connection) : Call × Connection :=
  match k.kind, k.pc with
  | .from_outside, .entry => ({ k with pc := .returned }, disconnect_from_outside k.reason c)
  | .full _, .entry =>
    let r := disconnect_start c
    ({ k with pc := if r.1 then .started else .returned }, r.2)
  | .full _, .started => ({ k with pc := .closed }, disconnect_print_and_close k.reason c)
  | .full r, .closed => ({ k with pc := .joined }, disconnect_join r (disconnect_mark r c))
  | .full _, .joined => ({ k with pc := .returned }, disconnect_finish c)
  | _, _ => (k, c)

/-- A call advanced `n` times with nothing else happening in between. -/
def advance_times : Nat → Call × Connection → Call × Connection
  | 0, s => s
  | n + 1, s => advance_times n (s.1.advance s.2)

/-- Advance the call at position `i`, if there is one. -/
def advance_at : Nat → List Call → Connection → List Call × Connection
  | _, [], c => ([], c)
  | 0, k :: ks, c => ((k.advance c).1 :: ks, (k.advance c).2)
  | i + 1, k :: ks, c => (k :: (advance_at i ks c).1, (advance_at i ks c).2)

/-- The writer, between two of its own `disconnect` calls: the critical
section of an iteration of `net_write` and, if a message was dequeued, the
`send_all` that follows. -/
def writer_send (c : Connection) : Connection :=
  match net_write_locked c with
  | (.message m, d) => d.emit (.send_all m)
  | (_, d) => d

/-- A connection together with the calls made on it. -/
structure System where
  conn : Connection
  calls : List Call
  deriving DecidableEq, Repr

/-- What can happen next. -/
inductive Action where
  /-- The call at position `i` takes its next step. -/
  | advance (i : Nat)
  /-- The writer runs `writer_send`. -/
  | writer
  /-- A producer enqueues a message. -/
  | enqueue (primary : Bool) (m : Msg)
  deriving DecidableEq, Repr

/-- One step of the system. -/
def System.step (s : System) : Action → System
  | .advance i => { conn := (advance_at i s.calls s.conn).2, calls := (advance_at i s.calls s.conn).1 }
  | .writer => { s with conn := writer_send s.conn }
  | .enqueue p m => { s with conn := enqueue p m s.conn }

/-- A schedule, run from a state. -/
def System.run (s : System) (schedule : List Action) : System :=
  schedule.foldl System.step s

/-- A connection, and calls still to begin. -/
def System.start (c : Connection) (calls : List (Kind × String)) : System :=
  { conn := c, calls := calls.map fun k => { kind := k.1, reason := k.2, pc := .entry } }

/-- Calls run one after the other, each to completion. -/
def run_calls (c : Connection) (calls : List (Kind × String)) : Connection :=
  calls.foldl
    (fun d k =>
      match k.1 with
      | .from_outside => disconnect_from_outside k.2 d
      | .full r => disconnect k.2 r d)
    c

/-- The number of calls standing at `pc`. -/
def at_pc (pc : Pc) (calls : List Call) : Nat :=
  calls.countP fun k => k.pc == pc

/-- The same action on a list of calls with one more call in front. -/
def Action.shift : Action → Action
  | .advance i => .advance (i + 1)
  | .writer => .writer
  | .enqueue p m => .enqueue p m

/-- A schedule that takes `n` calls to their return, one call after the
other: four steps for each, the most a call needs. -/
def sequential_schedule : Nat → List Action
  | 0 => []
  | n + 1 => List.replicate 4 (Action.advance 0) ++ (sequential_schedule n).map Action.shift

/-- A call stands at a point its entry point has: `disconnect_from_outside`
has its entry and its return only. -/
def Call.well_formed (k : Call) : Prop :=
  k.kind = Kind.from_outside → k.pc = Pc.entry ∨ k.pc = Pc.returned

/-- The bookkeeping of joins against the flag word, relative to a starting
state `c`: before Started no worker has been joined and no per-thread bit is
set; after it exactly one worker has been joined and the per-thread bit of
the other one is set. -/
def joins_recorded (c d : Connection) : Prop :=
  (has_flag d.disconnectFlags DISCONNECT_STARTED = false →
      has_flag d.disconnectFlags DISCONNECT_FROM_WRITE_THREAD = false ∧
        has_flag d.disconnectFlags DISCONNECT_FROM_READ_THREAD = false ∧
        read_joins d = read_joins c ∧ write_joins d = write_joins c) ∧
    (has_flag d.disconnectFlags DISCONNECT_STARTED = true →
      (has_flag d.disconnectFlags DISCONNECT_FROM_WRITE_THREAD = true ∧
          has_flag d.disconnectFlags DISCONNECT_FROM_READ_THREAD = false ∧
          read_joins d = read_joins c + 1 ∧ write_joins d = write_joins c) ∨
        (has_flag d.disconnectFlags DISCONNECT_FROM_WRITE_THREAD = false ∧
          has_flag d.disconnectFlags DISCONNECT_FROM_READ_THREAD = true ∧
          read_joins d = read_joins c ∧ write_joins d = write_joins c + 1))

/-- The protocol invariant, on the five flag bits `b0` (Started), `b1`
(PrintAndClose), `b2` (FromWriteThread), `b3` (FromReadThread), `b4`
(Complete), the numbers of calls standing after the Started test (`nA`),
after the print-and-close statement (`nC`), after the join (`nJ`) and
returned (`nR`), and the numbers of prints `p` and half-closes `q`, which
were `p0` and `q0` before any call began. -/
def Coordinated (p0 q0 : Nat) (b0 b1 b2 b3 b4 : Bool) (nA nC nJ nR p q : Nat) : Prop :=
  p = p0 + (if b1 then 1 else 0) ∧ q = q0 + (if b1 then 1 else 0) ∧
    (1 ≤ nR → b1 = true ∨ b0 = true) ∧
    (b0 = false → nA + nC + nJ = 0 ∧ b2 = false ∧ b3 = false ∧ b4 = false) ∧
    (b0 = true → nA = 0 → b1 = true) ∧
    nA + nC + nJ ≤ 1 ∧
    (1 ≤ nA + nC → b2 = false ∧ b3 = false ∧ b4 = false) ∧
    (1 ≤ nJ → (b2 != b3) = true ∧ b4 = false) ∧
    (b4 = true → (b2 != b3) = true) ∧
    (b0 = true → nA + nC + nJ = 0 → b4 = true) ∧
    ((b0 || b1) = true → 1 ≤ nA + nC + nJ + nR)

/-- The protocol invariant of a connection with given call counts. -/
def coordinated_with (p0 q0 : Nat) (c : Connection) (nA nC nJ nR : Nat) : Prop :=
  Coordinated p0 q0 (flag_bit c.disconnectFlags 0) (flag_bit c.disconnectFlags 1)
    (flag_bit c.disconnectFlags 2) (flag_bit c.disconnectFlags 3)
    (flag_bit c.disconnectFlags 4) nA nC nJ nR (prints c) (half_closes c)

/-- The protocol invariant of a system. -/
def coordinated (p0 q0 : Nat) (s : System) : Prop :=
  coordinated_with p0 q0 s.conn (at_pc .started s.calls) (at_pc .closed s.calls)
    (at_pc .joined s.calls) (at_pc .returned s.calls)

/-! ## Flag arithmetic -/

theorem has_flag_two_pow (f j : Nat) : has_flag f (2 ^ j) = flag_bit f j := by
  unfold has_flag flag_bit
  rw [Nat.and_two_pow]
  cases h : f.testBit j <;> simp

theorem flag_bit_or_two_pow (f k i : Nat) :
    flag_bit (f ||| 2 ^ k) i = (flag_bit f i || decide (i = k)) := by
  unfold flag_bit
  rw [Nat.testBit_or, Nat.testBit_two_pow]
  simp [eq_comm]

/-- The five masks are the bits 0 to 4, and `|||` with a mask sets that bit only. -/
theorem flag_bits :
    (∀ f, has_flag f DISCONNECT_STARTED = flag_bit f 0) ∧
    (∀ f, has_flag f DISCONNECT_PRINT_AND_CLOSE = flag_bit f 1) ∧
    (∀ f, has_flag f DISCONNECT_FROM_WRITE_THREAD = flag_bit f 2) ∧
    (∀ f, has_flag f DISCONNECT_FROM_READ_THREAD = flag_bit f 3) ∧
    (∀ f, has_flag f DISCONNECT_COMPLETE = flag_bit f 4) ∧
    (∀ f i, flag_bit (f ||| DISCONNECT_STARTED) i = (flag_bit f i || decide (i = 0))) ∧
    (∀ f i, flag_bit (f ||| DISCONNECT_PRINT_AND_CLOSE) i = (flag_bit f i || decide (i = 1))) ∧
    (∀ f i, flag_bit (f ||| DISCONNECT_FROM_WRITE_THREAD) i = (flag_bit f i || decide (i = 2))) ∧
    (∀ f i, flag_bit (f ||| DISCONNECT_FROM_READ_THREAD) i = (flag_bit f i || decide (i = 3))) ∧
    (∀ f i, flag_bit (f ||| DISCONNECT_COMPLETE) i = (flag_bit f i || decide (i = 4))) ∧
    (∀ i, flag_bit 0 i = false) :=
  ⟨fun f => has_flag_two_pow f 0, fun f => has_flag_two_pow f 1,
    fun f => has_flag_two_pow f 2, fun f => has_flag_two_pow f 3, fun f => has_flag_two_pow f 4,
    fun f => flag_bit_or_two_pow f 0, fun f => flag_bit_or_two_pow f 1,
    fun f => flag_bit_or_two_pow f 2, fun f => flag_bit_or_two_pow f 3,
    fun f => flag_bit_or_two_pow f 4, fun i => by simp [flag_bit]⟩

/-! ## What each step changes -/

@[simp] theorem emit_fields (c : Connection) (e : Event) :
    (c.emit e).disconnectFlags = c.disconnectFlags ∧
      (c.emit e).outbound_secondary_queue = c.outbound_secondary_queue ∧
      (c.emit e).outbound_primary_queue = c.outbound_primary_queue ∧
      (c.emit e).initial_outbound_throttle = c.initial_outbound_throttle ∧
      (c.emit e).total_waiting_size = c.total_waiting_size ∧
      (c.emit e).trace = c.trace ++ [e] :=
  ⟨rfl, rfl, rfl, rfl, rfl, rfl⟩

@[simp] theorem fetch_or_fields (c : Connection) (bits : Nat) :
    (fetch_or c bits).1 = c.disconnectFlags ∧
      (fetch_or c bits).2.disconnectFlags = c.disconnectFlags ||| bits ∧
      (fetch_or c bits).2.outbound_secondary_queue = c.outbound_secondary_queue ∧
      (fetch_or c bits).2.outbound_primary_queue = c.outbound_primary_queue ∧
      (fetch_or c bits).2.initial_outbound_throttle = c.initial_outbound_throttle ∧
      (fetch_or c bits).2.total_waiting_size = c.total_waiting_size ∧
      (fetch_or c bits).2.trace = c.trace :=
  ⟨rfl, rfl, rfl, rfl, rfl, rfl, rfl⟩

@[simp] theorem print_and_shutdown_fields (reason : String) (c : Connection) :
    (print_and_shutdown reason c).disconnectFlags = c.disconnectFlags ∧
      (print_and_shutdown reason c).outbound_secondary_queue = c.outbound_secondary_queue ∧
      (print_and_shutdown reason c).outbound_primary_queue = c.outbound_primary_queue ∧
      (print_and_shutdown reason c).initial_outbound_throttle = c.initial_outbound_throttle ∧
      (print_and_shutdown reason c).total_waiting_size = c.total_waiting_size ∧
      (print_and_shutdown reason c).trace =
        c.trace ++ [Event.print reason, Event.shutdown_rdwr] := by
  simp [print_and_shutdown]

@[simp] theorem disconnect_from_outside_fields (reason : String) (c : Connection) :
    (disconnect_from_outside reason c).disconnectFlags =
        c.disconnectFlags ||| DISCONNECT_PRINT_AND_CLOSE ∧
      (disconnect_from_outside reason c).outbound_secondary_queue =
        c.outbound_secondary_queue ∧
      (disconnect_from_outside reason c).outbound_primary_queue = c.outbound_primary_queue ∧
      (disconnect_from_outside reason c).initial_outbound_throttle =
        c.initial_outbound_throttle ∧
      (disconnect_from_outside reason c).total_waiting_size = c.total_waiting_size ∧
      (disconnect_from_outside reason c).trace =
        (if has_flag c.disconnectFlags DISCONNECT_PRINT_AND_CLOSE then c.trace
         else c.trace ++ [Event.print reason, Event.shutdown_rdwr]) := by
  cases h : has_flag c.disconnectFlags DISCONNECT_PRINT_AND_CLOSE <;>
    simp [disconnect_from_outside, h]

@[simp] theorem disconnect_start_fields (c : Connection) :
    (disconnect_start c).1 = !has_flag c.disconnectFlags DISCONNECT_STARTED ∧
      (disconnect_start c).2.disconnectFlags = c.disconnectFlags ||| DISCONNECT_STARTED ∧
      (disconnect_start c).2.outbound_secondary_queue = c.outbound_secondary_queue ∧
      (disconnect_start c).2.outbound_primary_queue = c.outbound_primary_queue ∧
      (disconnect_start c).2.initial_outbound_throttle = c.initial_outbound_throttle ∧
      (disconnect_start c).2.total_waiting_size = c.total_waiting_size ∧
      (disconnect_start c).2.trace = c.trace :=
  ⟨rfl, rfl, rfl, rfl, rfl, rfl, rfl⟩

@[simp] theorem disconnect_print_and_close_fields (reason : String) (c : Connection) :
    (disconnect_print_and_close reason c).disconnectFlags =
        c.disconnectFlags ||| DISCONNECT_PRINT_AND_CLOSE ∧
      (disconnect_print_and_close reason c).outbound_secondary_queue =
        c.outbound_secondary_queue ∧
      (disconnect_print_and_close reason c).outbound_primary_queue =
        c.outbound_primary_queue ∧
      (disconnect_print_and_close reason c).initial_outbound_throttle =
        c.initial_outbound_throttle ∧
      (disconnect_print_and_close reason c).total_waiting_size = c.total_waiting_size ∧
      (disconnect_print_and_close reason c).trace =
        (if has_flag c.disconnectFlags DISCONNECT_PRINT_AND_CLOSE then c.trace
         else c.trace ++ [Event.print reason, Event.shutdown_rdwr]) := by
  cases h : has_flag c.disconnectFlags DISCONNECT_PRINT_AND_CLOSE <;>
    simp [disconnect_print_and_close, h]

@[simp] theorem disconnect_mark_fields (r : Bool) (c : Connection) :
    (disconnect_mark r c).disconnectFlags =
        (c.disconnectFlags |||
          if r then DISCONNECT_FROM_READ_THREAD else DISCONNECT_FROM_WRITE_THREAD) ∧
      (disconnect_mark r c).outbound_secondary_queue =
        (if r then c.outbound_secondary_queue ++ [wake_message]
         else c.outbound_secondary_queue) ∧
      (disconnect_mark r c).outbound_primary_queue = c.outbound_primary_queue ∧
      (disconnect_mark r c).initial_outbound_throttle = c.initial_outbound_throttle ∧
      (disconnect_mark r c).total_waiting_size = c.total_waiting_size ∧
      (disconnect_mark r c).trace =
        (if r then c.trace ++ [Event.notify_all] else c.trace) := by
  cases r <;> simp [disconnect_mark, wake_write_thread]

@[simp] theorem disconnect_join_fields (r : Bool) (c : Connection) :
    (disconnect_join r c).disconnectFlags = c.disconnectFlags ∧
      (disconnect_join r c).outbound_secondary_queue = c.outbound_secondary_queue ∧
      (disconnect_join r c).outbound_primary_queue = c.outbound_primary_queue ∧
      (disconnect_join r c).initial_outbound_throttle = c.initial_outbound_throttle ∧
      (disconnect_join r c).total_waiting_size = c.total_waiting_size ∧
      (disconnect_join r c).trace =
        c.trace ++ [if r then Event.join_write else Event.join_read] := by
  cases r <;> simp [disconnect_join]

@[simp] theorem disconnect_finish_fields (c : Connection) :
    (disconnect_finish c).disconnectFlags = c.disconnectFlags ||| DISCONNECT_COMPLETE ∧
      (disconnect_finish c).outbound_secondary_queue = [] ∧
      (disconnect_finish c).outbound_primary_queue = [] ∧
      (disconnect_finish c).initial_outbound_throttle = c.initial_outbound_throttle ∧
      (disconnect_finish c).total_waiting_size = c.total_waiting_size ∧
      (disconnect_finish c).trace = c.trace :=
  ⟨rfl, rfl, rfl, rfl, rfl, rfl⟩

@[simp] theorem disconnect_to_join_fields (reason : String) (r : Bool) (c : Connection) :
    (disconnect_to_join reason r c).disconnectFlags =
        (c.disconnectFlags ||| DISCONNECT_STARTED ||| DISCONNECT_PRINT_AND_CLOSE |||
          if r then DISCONNECT_FROM_READ_THREAD else DISCONNECT_FROM_WRITE_THREAD) ∧
      (disconnect_to_join reason r c).outbound_secondary_queue =
        (if r then c.outbound_secondary_queue ++ [wake_message]
         else c.outbound_secondary_queue) ∧
      (disconnect_to_join reason r c).outbound_primary_queue = c.outbound_primary_queue ∧
      (disconnect_to_join reason r c).initial_outbound_throttle =
        c.initial_outbound_throttle ∧
      (disconnect_to_join reason r c).total_waiting_size = c.total_waiting_size := by
  simp [disconnect_to_join]

/-- Setting a bit that is already set changes nothing. -/
theorem or_two_pow_of_flag_bit (f k : Nat) (h : flag_bit f k = true) : f ||| 2 ^ k = f := by
  apply Nat.eq_of_testBit_eq
  intro i
  rw [Nat.testBit_or, Nat.testBit_two_pow]
  by_cases hk : k = i
  · subst hk
    simpa [flag_bit] using h
  · simp [hk]

theorem or_started_of_set (f : Nat) (h : has_flag f DISCONNECT_STARTED = true) :
    f ||| DISCONNECT_STARTED = f :=
  or_two_pow_of_flag_bit f 0 (by rwa [← has_flag_two_pow])

theorem or_print_and_close_of_set (f : Nat) (h : has_flag f DISCONNECT_PRINT_AND_CLOSE = true) :
    f ||| DISCONNECT_PRINT_AND_CLOSE = f :=
  or_two_pow_of_flag_bit f 1 (by rwa [← has_flag_two_pow])

/-! ## The outside entry point -/

/-- Everything `disconnect_from_outside` does, field by field. -/
theorem disconnect_from_outside_effect (reason : String) (c : Connection) :
    (disconnect_from_outside reason c).disconnectFlags =
        c.disconnectFlags ||| DISCONNECT_PRINT_AND_CLOSE ∧
      has_flag (disconnect_from_outside reason c).disconnectFlags DISCONNECT_PRINT_AND_CLOSE
        = true ∧
      has_flag (disconnect_from_outside reason c).disconnectFlags DISCONNECT_STARTED =
        has_flag c.disconnectFlags DISCONNECT_STARTED ∧
      has_flag (disconnect_from_outside reason c).disconnectFlags DISCONNECT_FROM_WRITE_THREAD =
        has_flag c.disconnectFlags DISCONNECT_FROM_WRITE_THREAD ∧
      has_flag (disconnect_from_outside reason c).disconnectFlags DISCONNECT_FROM_READ_THREAD =
        has_flag c.disconnectFlags DISCONNECT_FROM_READ_THREAD ∧
      has_flag (disconnect_from_outside reason c).disconnectFlags DISCONNECT_COMPLETE =
        has_flag c.disconnectFlags DISCONNECT_COMPLETE ∧
      read_joins (disconnect_from_outside reason c) = read_joins c ∧
      write_joins (disconnect_from_outside reason c) = write_joins c ∧
      (disconnect_from_outside reason c).outbound_secondary_queue = c.outbound_secondary_queue ∧
      (disconnect_from_outside reason c).outbound_primary_queue = c.outbound_primary_queue ∧
      (disconnect_from_outside reason c).total_waiting_size = c.total_waiting_size ∧
      (disconnect_from_outside reason c).initial_outbound_throttle =
        c.initial_outbound_throttle ∧
      (disconnect_from_outside reason c).trace =
        (if has_flag c.disconnectFlags DISCONNECT_PRINT_AND_CLOSE then c.trace
         else c.trace ++ [Event.print reason, Event.shutdown_rdwr]) ∧
      prints (disconnect_from_outside reason c) =
        prints c + (if has_flag c.disconnectFlags DISCONNECT_PRINT_AND_CLOSE then 0 else 1) ∧
      half_closes (disconnect_from_outside reason c) =
        half_closes c + (if has_flag c.disconnectFlags DISCONNECT_PRINT_AND_CLOSE then 0 else 1) ∧
      (if has_flag c.disconnectFlags DISCONNECT_PRINT_AND_CLOSE then
        disconnect_from_outside reason c = c
       else disconnect_from_outside reason c ≠ c) := by
  cases h : has_flag c.disconnectFlags DISCONNECT_PRINT_AND_CLOSE
  · have h1 : flag_bit c.disconnectFlags 1 = false := by rwa [← flag_bits.2.1]
    simp [disconnect_from_outside, fetch_or, print_and_shutdown, Connection.emit, h, flag_bits,
      read_joins, write_joins, prints, half_closes, List.count_append, List.countP_append]
    intro hc
    have := congrArg Connection.trace hc
    simp at this
  · have h2 := or_print_and_close_of_set _ h
    simp [disconnect_from_outside, fetch_or, h, h2]

/-- C9: `disconnect_from_outside` leaves the flag word equal to the old one
with only PrintAndClose added, so Started, FromWriteThread, FromReadThread
and Complete are as before; it joins no thread and leaves both queues,
`total_waiting_size` and `initial_outbound_throttle` unchanged; it prints and
half-closes exactly when PrintAndClose was clear, and with PrintAndClose
already set it returns the state it was given. -/
theorem disconnect_from_outside_frame (reason : String) (c : Connection) :
    (disconnect_from_outside reason c).disconnectFlags =
        c.disconnectFlags ||| DISCONNECT_PRINT_AND_CLOSE ∧
      has_flag (disconnect_from_outside reason c).disconnectFlags DISCONNECT_PRINT_AND_CLOSE
        = true ∧
      has_flag (disconnect_from_outside reason c).disconnectFlags DISCONNECT_STARTED =
        has_flag c.disconnectFlags DISCONNECT_STARTED ∧
      has_flag (disconnect_from_outside reason c).disconnectFlags DISCONNECT_FROM_WRITE_THREAD =
        has_flag c.disconnectFlags DISCONNECT_FROM_WRITE_THREAD ∧
      has_flag (disconnect_from_outside reason c).disconnectFlags DISCONNECT_FROM_READ_THREAD =
        has_flag c.disconnectFlags DISCONNECT_FROM_READ_THREAD ∧
      has_flag (disconnect_from_outside reason c).disconnectFlags DISCONNECT_COMPLETE =
        has_flag c.disconnectFlags DISCONNECT_COMPLETE ∧
      read_joins (disconnect_from_outside reason c) = read_joins c ∧
      write_joins (disconnect_from_outside reason c) = write_joins c ∧
      (disconnect_from_outside reason c).outbound_secondary_queue = c.outbound_secondary_queue ∧
      (disconnect_from_outside reason c).outbound_primary_queue = c.outbound_primary_queue ∧
      (disconnect_from_outside reason c).total_waiting_size = c.total_waiting_size ∧
      (disconnect_from_outside reason c).initial_outbound_throttle =
        c.initial_outbound_throttle ∧
      (disconnect_from_outside reason c).trace =
        (if has_flag c.disconnectFlags DISCONNECT_PRINT_AND_CLOSE then c.trace
         else c.trace ++ [Event.print reason, Event.shutdown_rdwr]) ∧
      prints (disconnect_from_outside reason c) =
        prints c + (if has_flag c.disconnectFlags DISCONNECT_PRINT_AND_CLOSE then 0 else 1) ∧
      half_closes (disconnect_from_outside reason c) =
        half_closes c + (if has_flag c.disconnectFlags DISCONNECT_PRINT_AND_CLOSE then 0 else 1) ∧
      (if has_flag c.disconnectFlags DISCONNECT_PRINT_AND_CLOSE then
        disconnect_from_outside reason c = c
       else disconnect_from_outside reason c ≠ c) :=
  disconnect_from_outside_effect reason c

/-! ## The full disconnect -/

/-- A `disconnect` that finds Started set returns the state it was given. -/
theorem disconnect_of_started (reason : String) (r : Bool) (c : Connection)
    (h : has_flag c.disconnectFlags DISCONNECT_STARTED = true) : disconnect reason r c = c := by
  simp [disconnect, disconnect_start, fetch_or, h, or_started_of_set _ h]

/-- A `disconnect` that finds Started clear runs all its steps. -/
theorem disconnect_of_not_started (reason : String) (r : Bool) (c : Connection)
    (h : has_flag c.disconnectFlags DISCONNECT_STARTED = false) :
    disconnect reason r c =
      disconnect_finish (disconnect_join r (disconnect_to_join reason r c)) := by
  simp [disconnect, disconnect_start, fetch_or, h]

/-- C5, counterexample: on a fresh connection the message that a reader's
`disconnect` has pushed when it reaches the `join` is not of length zero. -/
theorem wake_message_not_empty :
    ¬ ∀ m ∈ (disconnect_to_join "eof" true construct).outbound_secondary_queue,
        m.length = 0 := by
  simp [construct, wake_message]

/-- C5, amended: a `disconnect` that finds Started clear runs up to its
`join`, joins and finishes; when the caller is the reader, the state at the
`join` has one more message at the back of the secondary queue, the wake
message, whose length is one (a single zero byte), and the primary queue is
as it was; when the caller is not the reader both queues are as they were. -/
theorem disconnect_wake_message (reason : String) (c : Connection)
    (h : has_flag c.disconnectFlags DISCONNECT_STARTED = false) :
    (∀ r, disconnect reason r c =
        disconnect_finish (disconnect_join r (disconnect_to_join reason r c))) ∧
      (disconnect_to_join reason true c).outbound_secondary_queue =
        c.outbound_secondary_queue ++ [wake_message] ∧
      wake_message = [0] ∧
      wake_message.length = 1 ∧
      (disconnect_to_join reason true c).outbound_primary_queue = c.outbound_primary_queue ∧
      (disconnect_to_join reason false c).outbound_secondary_queue =
        c.outbound_secondary_queue ∧
      (disconnect_to_join reason false c).outbound_primary_queue = c.outbound_primary_queue := by
  refine ⟨fun r => disconnect_of_not_started reason r c h, ?_, rfl, rfl, ?_, ?_, ?_⟩ <;> simp

/-- An instance of `disconnect_wake_message`: the fresh connection. -/
theorem disconnect_wake_message_witness :
    has_flag construct.disconnectFlags DISCONNECT_STARTED = false ∧
      (disconnect_to_join "eof" true construct).outbound_secondary_queue =
        construct.outbound_secondary_queue ++ [wake_message] :=
  ⟨by decide, (disconnect_wake_message "eof" construct (by decide)).2.1⟩

/-! ## The destructor -/

/-- C3, the code at the failing input: take a fresh connection on which the
writer's `disconnect` has joined the reader but has not yet cleared the
queues and set Complete. The flag word is Started, PrintAndClose and
FromWriteThread, Complete is clear, and the destructor does not abort: it
joins the writer, closes the socket and deletes both thread handles. In
general the destructor aborts exactly when neither per-thread bit is set,
whatever the Complete bit. -/
theorem destructor_ignores_complete :
    (disconnect_join false (disconnect_to_join "eof" false construct)).disconnectFlags = 7 ∧
      has_flag (disconnect_join false (disconnect_to_join "eof" false construct)).disconnectFlags
        DISCONNECT_COMPLETE = false ∧
      (destructor (disconnect_join false (disconnect_to_join "eof" false construct))).map
          Connection.trace =
        some [Event.print "eof", Event.shutdown_rdwr, Event.join_read, Event.join_write,
          Event.close_sock, Event.delete_read, Event.delete_write] ∧
      ∀ c : Connection,
        (destructor c = none ↔
          (has_flag c.disconnectFlags DISCONNECT_FROM_WRITE_THREAD = false ∧
            has_flag c.disconnectFlags DISCONNECT_FROM_READ_THREAD = false)) := by
  refine ⟨by decide, by decide, by decide, ?_⟩
  intro c
  unfold destructor
  cases h4 : has_flag c.disconnectFlags DISCONNECT_FROM_WRITE_THREAD <;>
    cases h8 : has_flag c.disconnectFlags DISCONNECT_FROM_READ_THREAD <;>
    simp [DISCONNECT_COMPLETE]

/-! ## The waiting size -/

/-- The dequeue step keeps the waiting size equal to the queued bytes. -/
theorem dequeue_keeps_total (c d : Connection) (m : Msg)
    (hw : c.total_waiting_size < 4294967296)
    (hc : c.total_waiting_size = queued_bytes c)
    (hd : dequeue c = some (m, d)) : d.total_waiting_size = queued_bytes d := by
  unfold dequeue pop_message at hd
  rcases c with ⟨f, S, P, th, t, tr⟩
  simp only [queued_bytes] at hc ⊢
  simp only at hw hc
  cases P with
  | cons p P =>
    simp only [Option.map_some', Option.some.injEq, Prod.mk.injEq] at hd
    obtain ⟨rfl, rfl⟩ := hd
    simp only [List.map_cons, List.sum_cons] at hc
    simp only [account, Connection.emit]
    split_ifs <;> simp only [] <;> omega
  | nil =>
    cases S with
    | nil => simp at hd
    | cons q S =>
      simp only [Option.map_some', Option.some.injEq, Prod.mk.injEq] at hd
      obtain ⟨rfl, rfl⟩ := hd
      simp only [List.map_cons, List.sum_cons, List.map_nil, List.sum_nil] at hc
      simp only [account, Connection.emit]
      split_ifs <;> simp only [List.map_nil, List.sum_nil] <;> omega

/-- C4, counterexample: with one one-byte message queued and a waiting size
of one, the equality holds before `disconnect` and fails after it. -/
theorem disconnect_breaks_total :
    ¬ ((({ construct with
            outbound_primary_queue := [[7]]
            total_waiting_size := 1 } : Connection).total_waiting_size =
          queued_bytes { construct with
            outbound_primary_queue := [[7]]
            total_waiting_size := 1 }) →
        (disconnect "eof" false { construct with
            outbound_primary_queue := [[7]]
            total_waiting_size := 1 }).total_waiting_size =
          queued_bytes (disconnect "eof" false { construct with
            outbound_primary_queue := [[7]]
            total_waiting_size := 1 })) := by
  decide

/-- A non-empty queue gives the dequeue step a message. -/
theorem dequeue_isSome (c : Connection)
    (h : c.outbound_primary_queue ≠ [] ∨ c.outbound_secondary_queue ≠ []) :
    (dequeue c).isSome = true := by
  rcases c with ⟨f, S, P, th, t, tr⟩
  cases P <;> cases S <;> simp_all [dequeue, pop_message]

/-- The trace of a `disconnect` that finds Started clear. -/
theorem disconnect_trace (reason : String) (r : Bool) (c : Connection)
    (h : has_flag c.disconnectFlags DISCONNECT_STARTED = false) :
    (disconnect reason r c).trace =
      c.trace ++
        (if has_flag c.disconnectFlags DISCONNECT_PRINT_AND_CLOSE then []
         else [Event.print reason, Event.shutdown_rdwr]) ++
        (if r then [Event.notify_all, Event.join_write] else [Event.join_read]) := by
  rw [disconnect_of_not_started reason r c h]
  cases r <;> cases hp : has_flag c.disconnectFlags DISCONNECT_PRINT_AND_CLOSE <;>
    (rw [flag_bits.2.1] at hp; simp [disconnect_to_join, flag_bits, hp])

/-- What `disconnect` leaves alone, whether or not it finds Started set. -/
theorem disconnect_frame (reason : String) (r : Bool) (c : Connection) :
    (disconnect reason r c).total_waiting_size = c.total_waiting_size ∧
      (disconnect reason r c).initial_outbound_throttle = c.initial_outbound_throttle ∧
      sent (disconnect reason r c) = sent c ∧
      delays (disconnect reason r c) = delays c := by
  cases h : has_flag c.disconnectFlags DISCONNECT_STARTED
  · have ht := disconnect_trace reason r c h
    rw [disconnect_of_not_started reason r c h] at ht ⊢
    refine ⟨by simp, by simp, ?_, ?_⟩
    · simp only [sent, ht]
      cases r <;> cases has_flag c.disconnectFlags DISCONNECT_PRINT_AND_CLOSE <;> simp
    · simp only [delays, ht]
      cases r <;> cases has_flag c.disconnectFlags DISCONNECT_PRINT_AND_CLOSE <;> simp
  · rw [disconnect_of_started reason r c h]
    exact ⟨rfl, rfl, rfl, rfl⟩

/-- C4, amended: the dequeue step of the writer keeps `total_waiting_size`
equal to the sum of the lengths of the queued messages (and it has a message
to take whenever a queue is not empty); `disconnect` never changes
`total_waiting_size`, neither at its wake-message push nor at its final
clear, and when it finds Started clear it leaves both queues empty. -/
theorem waiting_size_tracking (c : Connection)
    (hw : c.total_waiting_size < 4294967296)
    (hc : c.total_waiting_size = queued_bytes c) :
    (∀ m d, dequeue c = some (m, d) →
        d.total_waiting_size = queued_bytes d ∧ d.total_waiting_size < 4294967296) ∧
      ((c.outbound_primary_queue ≠ [] ∨ c.outbound_secondary_queue ≠ []) →
        (dequeue c).isSome = true) ∧
      (∀ reason r, (disconnect_to_join reason r c).total_waiting_size = c.total_waiting_size) ∧
      (∀ reason r, (disconnect reason r c).total_waiting_size = c.total_waiting_size) ∧
      (∀ reason r, has_flag c.disconnectFlags DISCONNECT_STARTED = false →
        queued_bytes (disconnect reason r c) = 0) := by
  refine ⟨fun m d hd => ⟨dequeue_keeps_total c d m hw hc hd, ?_⟩, dequeue_isSome c,
    fun reason r => by simp, fun reason r => (disconnect_frame reason r c).1, ?_⟩
  · have h := dequeue_keeps_total c d m hw hc hd
    unfold dequeue pop_message at hd
    rcases c with ⟨f, S, P, th, t, tr⟩
    simp only at hw
    cases P with
    | cons p P =>
      simp only [Option.map_some', Option.some.injEq, Prod.mk.injEq] at hd
      obtain ⟨rfl, rfl⟩ := hd
      simp only [account, Connection.emit]
      split_ifs <;> simp only [] <;> omega
    | nil =>
      cases S with
      | nil => simp at hd
      | cons q S =>
        simp only [Option.map_some', Option.some.injEq, Prod.mk.injEq] at hd
        obtain ⟨rfl, rfl⟩ := hd
        simp only [account, Connection.emit]
        split_ifs <;> simp only [] <;> omega
  · intro reason r h
    rw [disconnect_of_not_started reason r c h]
    simp [queued_bytes]

/-- An instance of `waiting_size_tracking`: one one-byte message queued. -/
theorem waiting_size_tracking_witness :
    (dequeue { construct with
        outbound_primary_queue := [[7]]
        total_waiting_size := 1 }).isSome = true :=
  (waiting_size_tracking
    { construct with
      outbound_primary_queue := [[7]]
      total_waiting_size := 1 }
    (by decide) (by decide)).2.1 (Or.inl (by decide))

/-! ## The writer loop -/

/-- What the accounting leaves alone. -/
theorem account_fields (m : Msg) (c : Connection) :
    (account m c).disconnectFlags = c.disconnectFlags ∧
      (account m c).outbound_secondary_queue = c.outbound_secondary_queue ∧
      (account m c).outbound_primary_queue = c.outbound_primary_queue ∧
      (account m c).total_waiting_size =
        (((c.total_waiting_size : Int) - (m.length : Int)) % 4294967296).toNat ∧
      sent (account m c) = sent c ∧
      prints (account m c) = prints c ∧
      half_closes (account m c) = half_closes c := by
  simp only [account]
  split_ifs <;> simp [sent, prints, half_closes, List.filterMap_append]

theorem sent_emit_send_all (c : Connection) (m : Msg) :
    sent (c.emit (Event.send_all m)) = sent c ++ [m] := by
  simp [sent, List.filterMap_append]

/-- The dequeue step on a non-empty primary queue takes its front. -/
theorem dequeue_primary (c : Connection) (p : Msg) (P : List Msg)
    (h : c.outbound_primary_queue = p :: P) :
    ∃ d, dequeue c = some (p, d) ∧ d.disconnectFlags = c.disconnectFlags ∧
      d.outbound_primary_queue = P ∧
      d.outbound_secondary_queue = c.outbound_secondary_queue ∧ sent d = sent c := by
  have hd : dequeue c = some (p, account p { c with outbound_primary_queue := P }) := by
    simp only [dequeue, pop_message, h, Option.map_some']
  have ha := account_fields p { c with outbound_primary_queue := P }
  exact ⟨_, hd, ha.1, ha.2.2.1, ha.2.1, ha.2.2.2.2.1⟩

/-- The dequeue step on an empty primary queue takes the front of the
secondary queue. -/
theorem dequeue_secondary (c : Connection) (q : Msg) (S : List Msg)
    (hp : c.outbound_primary_queue = []) (h : c.outbound_secondary_queue = q :: S) :
    ∃ d, dequeue c = some (q, d) ∧ d.disconnectFlags = c.disconnectFlags ∧
      d.outbound_primary_queue = [] ∧ d.outbound_secondary_queue = S ∧ sent d = sent c := by
  have hd : dequeue c = some (q, account q { c with outbound_secondary_queue := S }) := by
    simp only [dequeue, pop_message, hp, h, Option.map_some']
  have ha := account_fields q { c with outbound_secondary_queue := S }
  exact ⟨_, hd, ha.1, ha.2.2.1.trans hp, ha.2.1, ha.2.2.2.2.1⟩

/-- An iteration with no flag set, a message to take and a full send. -/
theorem net_write_iter_sends (send_result : Msg → Int) (c d : Connection) (m : Msg)
    (hf : c.disconnectFlags = 0) (hd : dequeue c = some (m, d))
    (hs : send_result m = (m.length : Int)) :
    net_write_iter send_result c = (Outcome.looping, d.emit (Event.send_all m)) := by
  have hne : ¬ (c.outbound_secondary_queue.length = 0 ∧ c.outbound_primary_queue.length = 0) := by
    rintro ⟨h1, h2⟩
    rw [List.length_eq_zero] at h1 h2
    simp [dequeue, pop_message, h1, h2] at hd
  simp only [net_write_iter, net_write_locked, if_neg hne, hf, hd, hs, ne_eq, not_true_eq_false,
    if_false]

/-- An iteration with both queues empty stays in the wait. -/
theorem net_write_iter_waits (send_result : Msg → Int) (c : Connection)
    (hp : c.outbound_primary_queue = []) (hs : c.outbound_secondary_queue = []) :
    net_write_iter send_result c = (Outcome.waiting, c) := by
  simp [net_write_iter, net_write_locked, hp, hs]

/-- With the primary queue empty and every send complete, the loop sends the
secondary queue in order and then waits. -/
theorem net_write_drains_secondary :
    ∀ (S : List Msg) (send_result : Nat → Msg → Int) (c : Connection) (fuel : Nat),
      (∀ i m, send_result i m = (m.length : Int)) →
      c.disconnectFlags = 0 → c.outbound_primary_queue = [] →
      c.outbound_secondary_queue = S → S.length < fuel →
      ∃ d, net_write send_result fuel c = (Outcome.waiting, d) ∧ sent d = sent c ++ S ∧
        d.outbound_primary_queue = [] ∧ d.outbound_secondary_queue = [] ∧
        d.disconnectFlags = 0 := by
  intro S
  induction S with
  | nil =>
    intro send_result c fuel _ hf hp hs hlt
    obtain ⟨n, rfl⟩ : ∃ n, fuel = n + 1 := ⟨fuel - 1, by simp at hlt; omega⟩
    refine ⟨c, ?_, by simp, hp, hs, hf⟩
    simp [net_write, net_write_iter_waits _ c hp hs]
  | cons q S ih =>
    intro send_result c fuel hsend hf hp hs hlt
    obtain ⟨n, rfl⟩ : ∃ n, fuel = n + 1 := ⟨fuel - 1, by simp at hlt; omega⟩
    obtain ⟨e, hd, hef, hep, hes, hesent⟩ := dequeue_secondary c q S hp hs
    have hi := net_write_iter_sends (send_result 0) c e q hf hd (hsend 0 q)
    obtain ⟨d, h1, h2, h3⟩ := ih (fun i => send_result (i + 1)) (e.emit (Event.send_all q)) n
      (fun i m => hsend (i + 1) m) (by simp [hef, hf]) (by simp [hep])
      (by simp [hes]) (by simp at hlt; omega)
    refine ⟨d, ?_, ?_, h3⟩
    · simp [net_write, hi, h1]
    · rw [h2, sent_emit_send_all, hesent]
      simp

/-- With every send complete, the loop sends the primary queue in order,
then the secondary queue in order, and then waits. -/
theorem net_write_drains :
    ∀ (P S : List Msg) (send_result : Nat → Msg → Int) (c : Connection) (fuel : Nat),
      (∀ i m, send_result i m = (m.length : Int)) →
      c.disconnectFlags = 0 → c.outbound_primary_queue = P →
      c.outbound_secondary_queue = S → P.length + S.length < fuel →
      ∃ d, net_write send_result fuel c = (Outcome.waiting, d) ∧ sent d = sent c ++ (P ++ S) ∧
        d.outbound_primary_queue = [] ∧ d.outbound_secondary_queue = [] ∧
        d.disconnectFlags = 0 := by
  intro P
  induction P with
  | nil =>
    intro S send_result c fuel hsend hf hp hs hlt
    simpa using net_write_drains_secondary S send_result c fuel hsend hf hp hs (by simpa using hlt)
  | cons p P ih =>
    intro S send_result c fuel hsend hf hp hs hlt
    obtain ⟨n, rfl⟩ : ∃ n, fuel = n + 1 := ⟨fuel - 1, by simp at hlt; omega⟩
    obtain ⟨e, hd, hef, hep, hes, hesent⟩ := dequeue_primary c p P hp
    have hi := net_write_iter_sends (send_result 0) c e p hf hd (hsend 0 p)
    obtain ⟨d, h1, h2, h3⟩ := ih S (fun i => send_result (i + 1)) (e.emit (Event.send_all p)) n
      (fun i m => hsend (i + 1) m) (by simp [hef, hf]) (by simp [hep])
      (by simp [hes, hs]) (by simp at hlt; omega)
    refine ⟨d, ?_, ?_, h3⟩
    · simp [net_write, hi, h1]
    · rw [h2, sent_emit_send_all, hesent]
      simp

/-- C7: if `net_write` starts with no disconnect flag set, primary queue `P`
and secondary queue `S`, nothing else touches the connection and every
`send_all` sends its message in full, then after `|P| + |S|` sends the loop
is waiting on empty queues, and the messages it passed to `send_all` are
exactly `P ++ S`, in that order; and while the primary queue is not empty an
iteration sends the front of the primary queue and leaves the secondary queue
as it is. -/
theorem net_write_delivery_order (P S : List Msg) (send_result : Nat → Msg → Int)
    (c : Connection) (fuel : Nat)
    (hsend : ∀ i m, send_result i m = (m.length : Int))
    (hf : c.disconnectFlags = 0) (hp : c.outbound_primary_queue = P)
    (hs : c.outbound_secondary_queue = S) (hfuel : P.length + S.length < fuel) :
    (∃ d, net_write send_result fuel c = (Outcome.waiting, d) ∧
        sent d = sent c ++ (P ++ S) ∧
        d.outbound_primary_queue = [] ∧ d.outbound_secondary_queue = []) ∧
      (∀ p rest, P = p :: rest →
        ∃ d, net_write_iter (send_result 0) c = (Outcome.looping, d) ∧
          sent d = sent c ++ [p] ∧ d.outbound_primary_queue = rest ∧
          d.outbound_secondary_queue = S) := by
  constructor
  · obtain ⟨d, h1, h2, h3, h4, _⟩ := net_write_drains P S send_result c fuel hsend hf hp hs hfuel
    exact ⟨d, h1, h2, h3, h4⟩
  · intro p rest hP
    obtain ⟨e, hd, _, hep, hes, hesent⟩ := dequeue_primary c p rest (hp.trans hP)
    have hi := net_write_iter_sends (send_result 0) c e p hf hd (hsend 0 p)
    exact ⟨_, hi, by rw [sent_emit_send_all, hesent], by simp [hep], by simp [hes, hs]⟩

/-- An instance of `net_write_delivery_order`: primary `[A, B]`, secondary
`[C]`, delivered as `A, B, C`. -/
theorem net_write_delivery_order_witness :
    ∃ d, net_write (fun _ m => (m.length : Int)) 4
        { construct with
          outbound_primary_queue := [[1], [2, 2]]
          outbound_secondary_queue := [[3, 3, 3]]
          total_waiting_size := 6 } = (Outcome.waiting, d) ∧
      sent d = [] ++ ([[1], [2, 2]] ++ [[3, 3, 3]]) ∧
      d.outbound_primary_queue = [] ∧ d.outbound_secondary_queue = [] :=
  (net_write_delivery_order [[1], [2, 2]] [[3, 3, 3]] (fun _ m => (m.length : Int))
    { construct with
      outbound_primary_queue := [[1], [2, 2]]
      outbound_secondary_queue := [[3, 3, 3]]
      total_waiting_size := 6 }
    4 (fun _ _ => rfl) rfl rfl rfl (by decide)).1

/-! ## Joins -/

/-- What a `disconnect` that finds Started clear adds to the trace, counted. -/
theorem disconnect_counts (reason : String) (r : Bool) (c : Connection)
    (h : has_flag c.disconnectFlags DISCONNECT_STARTED = false) :
    read_joins (disconnect reason r c) = read_joins c + (if r then 0 else 1) ∧
      write_joins (disconnect reason r c) = write_joins c + (if r then 1 else 0) ∧
      prints (disconnect reason r c) =
        prints c + (if has_flag c.disconnectFlags DISCONNECT_PRINT_AND_CLOSE then 0 else 1) ∧
      half_closes (disconnect reason r c) =
        half_closes c +
          (if has_flag c.disconnectFlags DISCONNECT_PRINT_AND_CLOSE then 0 else 1) := by
  simp only [read_joins, write_joins, prints, half_closes, disconnect_trace reason r c h]
  cases r <;> cases has_flag c.disconnectFlags DISCONNECT_PRINT_AND_CLOSE <;>
    simp [List.count_append, List.countP_append]

/-- The flag word after a `disconnect` that finds Started clear. -/
theorem disconnect_flags (reason : String) (r : Bool) (c : Connection)
    (h : has_flag c.disconnectFlags DISCONNECT_STARTED = false) :
    (disconnect reason r c).disconnectFlags =
      (c.disconnectFlags ||| DISCONNECT_STARTED ||| DISCONNECT_PRINT_AND_CLOSE |||
        (if r then DISCONNECT_FROM_READ_THREAD else DISCONNECT_FROM_WRITE_THREAD)) |||
        DISCONNECT_COMPLETE := by
  rw [disconnect_of_not_started reason r c h]
  simp

/-- The destructor on a state with FromWriteThread set. -/
theorem destructor_from_write (d : Connection)
    (h : has_flag d.disconnectFlags DISCONNECT_FROM_WRITE_THREAD = true) :
    ∃ e, destructor d = some e ∧ write_joins e = write_joins d + 1 ∧
      read_joins e = read_joins d := by
  refine ⟨_, by simp only [destructor, h, DISCONNECT_COMPLETE]; rfl, ?_, ?_⟩ <;>
    simp [write_joins, read_joins, List.count_append]

/-- The destructor on a state with FromReadThread set and FromWriteThread clear. -/
theorem destructor_from_read (d : Connection)
    (h4 : has_flag d.disconnectFlags DISCONNECT_FROM_WRITE_THREAD = false)
    (h8 : has_flag d.disconnectFlags DISCONNECT_FROM_READ_THREAD = true) :
    ∃ e, destructor d = some e ∧ read_joins e = read_joins d + 1 ∧
      write_joins e = write_joins d := by
  refine ⟨_, by simp only [destructor, h4, h8, DISCONNECT_COMPLETE]; rfl, ?_, ?_⟩ <;>
    simp [write_joins, read_joins, List.count_append]

/-- One call keeps the bookkeeping of joins. -/
theorem joins_recorded_call (c d : Connection) (k : Kind × String) (h : joins_recorded c d) :
    joins_recorded c (run_calls d [k]) := by
  obtain ⟨kind, reason⟩ := k
  cases kind with
  | from_outside =>
    have hd : run_calls d [(Kind.from_outside, reason)] = disconnect_from_outside reason d := rfl
    have hf := disconnect_from_outside_effect reason d
    rw [hd]
    unfold joins_recorded
    rw [hf.2.2.1, hf.2.2.2.1, hf.2.2.2.2.1, hf.2.2.2.2.2.2.1, hf.2.2.2.2.2.2.2.1]
    exact h
  | full r =>
    have hd : run_calls d [(Kind.full r, reason)] = disconnect reason r d := rfl
    rw [hd]
    cases hs : has_flag d.disconnectFlags DISCONNECT_STARTED
    · obtain ⟨h4, h8, hr, hw⟩ := h.1 hs
      have hc := disconnect_counts reason r d hs
      have hfl := disconnect_flags reason r d hs
      rw [flag_bits.2.2.1] at h4
      rw [flag_bits.2.2.2.1] at h8
      unfold joins_recorded
      rw [hc.1, hc.2.1, hfl, hr, hw]
      cases r <;> simp [flag_bits, h4, h8]
    · rw [disconnect_of_started reason r d hs]
      exact h

/-- Calls run one after the other keep the bookkeeping of joins. -/
theorem joins_recorded_run (c : Connection) (calls : List (Kind × String)) :
    ∀ d, joins_recorded c d → joins_recorded c (run_calls d calls) := by
  induction calls with
  | nil => exact fun d h => h
  | cons k ks ih => exact fun d h => ih _ (joins_recorded_call c d k h)

/-- Started stays set through later calls. -/
theorem started_run (calls : List (Kind × String)) :
    ∀ d, has_flag d.disconnectFlags DISCONNECT_STARTED = true →
      has_flag (run_calls d calls).disconnectFlags DISCONNECT_STARTED = true := by
  induction calls with
  | nil => exact fun d h => h
  | cons k ks ih =>
    intro d h
    refine ih _ ?_
    obtain ⟨kind, reason⟩ := k
    cases kind with
    | from_outside =>
      show has_flag (disconnect_from_outside reason d).disconnectFlags DISCONNECT_STARTED = true
      rw [(disconnect_from_outside_effect reason d).2.2.1, h]
    | full r =>
      show has_flag (disconnect reason r d).disconnectFlags DISCONNECT_STARTED = true
      rw [disconnect_of_started reason r d h, h]

/-- A run of calls with a `disconnect` among them ends with Started set. -/
theorem started_of_full (calls : List (Kind × String)) :
    ∀ d, (∃ r reason, (Kind.full r, reason) ∈ calls) →
      has_flag (run_calls d calls).disconnectFlags DISCONNECT_STARTED = true := by
  induction calls with
  | nil => intro d ⟨_, _, h⟩; simp at h
  | cons k ks ih =>
    intro d ⟨r, reason, h⟩
    rcases List.mem_cons.1 h with rfl | h
    · refine started_run ks _ ?_
      show has_flag (disconnect reason r d).disconnectFlags DISCONNECT_STARTED = true
      cases hs : has_flag d.disconnectFlags DISCONNECT_STARTED
      · rw [disconnect_flags reason r d hs]
        cases r <;> simp [flag_bits]
      · rw [disconnect_of_started reason r d hs, hs]
    · exact ih _ ⟨r, reason, h⟩

/-- C6: on a connection with no flag set, after any sequence of `disconnect`
and `disconnect_from_outside` calls with at least one `disconnect` among
them, the destructor does not abort and, counted from the start to the end
of the destructor, `read_thread` has been joined exactly once and
`write_thread` exactly once. A `disconnect` that finds Started clear joins
exactly one worker, the writer if the caller is the reader and the reader
otherwise; a `disconnect` that finds Started set returns the state it was
given; the destructor joins `write_thread` when FromWriteThread is set and
`read_thread` when only FromReadThread is set. -/
theorem each_worker_joined_once (c : Connection) (calls : List (Kind × String))
    (hf : c.disconnectFlags = 0) (hcall : ∃ r reason, (Kind.full r, reason) ∈ calls) :
    (∃ e, destructor (run_calls c calls) = some e ∧
        read_joins e = read_joins c + 1 ∧ write_joins e = write_joins c + 1) ∧
      (∀ reason r d, has_flag d.disconnectFlags DISCONNECT_STARTED = false →
        read_joins (disconnect reason r d) = read_joins d + (if r then 0 else 1) ∧
          write_joins (disconnect reason r d) = write_joins d + (if r then 1 else 0)) ∧
      (∀ reason r d, has_flag d.disconnectFlags DISCONNECT_STARTED = true →
        disconnect reason r d = d) ∧
      (∀ d, has_flag d.disconnectFlags DISCONNECT_FROM_WRITE_THREAD = true →
        ∃ e, destructor d = some e ∧ write_joins e = write_joins d + 1 ∧
          read_joins e = read_joins d) ∧
      (∀ d, has_flag d.disconnectFlags DISCONNECT_FROM_WRITE_THREAD = false →
        has_flag d.disconnectFlags DISCONNECT_FROM_READ_THREAD = true →
        ∃ e, destructor d = some e ∧ read_joins e = read_joins d + 1 ∧
          write_joins e = write_joins d) := by
  refine ⟨?_, fun reason r d h => ⟨(disconnect_counts reason r d h).1,
    (disconnect_counts reason r d h).2.1⟩, fun reason r d h => disconnect_of_started reason r d h,
    destructor_from_write, destructor_from_read⟩
  have h0 : joins_recorded c c := by
    unfold joins_recorded
    simp [hf, flag_bits]
  have hj := joins_recorded_run c calls c h0
  have hs := started_of_full calls c hcall
  rcases hj.2 hs with ⟨h4, _, hr, hw⟩ | ⟨h4, h8, hr, hw⟩
  · obtain ⟨e, he, h1, h2⟩ := destructor_from_write _ h4
    exact ⟨e, he, by rw [h2, hr], by rw [h1, hw]⟩
  · obtain ⟨e, he, h1, h2⟩ := destructor_from_read _ h4 h8
    exact ⟨e, he, by rw [h1, hr], by rw [h2, hw]⟩

/-- An instance of `each_worker_joined_once`: an outside abort, a
`disconnect` from the reader, then one from the writer. -/
theorem each_worker_joined_once_witness :
    ∃ e, destructor (run_calls construct
        [(Kind.from_outside, "abort"), (Kind.full true, "eof"),
          (Kind.full false, "disconnect started elsewhere")]) = some e ∧
      read_joins e = read_joins construct + 1 ∧ write_joins e = write_joins construct + 1 :=
  (each_worker_joined_once construct
    [(Kind.from_outside, "abort"), (Kind.full true, "eof"),
      (Kind.full false, "disconnect started elsewhere")]
    rfl ⟨true, "eof", by simp⟩).1

/-! ## Interleaved calls -/

/-- Advancing the call at a position either does nothing or advances one of
the calls, moving it from one count to another. -/
theorem advance_at_spec : ∀ (i : Nat) (calls : List Call) (c : Connection),
    advance_at i calls c = (calls, c) ∨
      ∃ k ∈ calls, (advance_at i calls c).2 = (k.advance c).2 ∧
        ∀ pc, at_pc pc (advance_at i calls c).1 + (if k.pc = pc then 1 else 0) =
          at_pc pc calls + (if (k.advance c).1.pc = pc then 1 else 0) := by
  intro i calls
  induction calls generalizing i with
  | nil => intro c; left; cases i <;> rfl
  | cons k ks ih =>
    intro c
    cases i with
    | zero =>
      right
      refine ⟨k, List.mem_cons_self _ _, rfl, fun pc => ?_⟩
      simp only [advance_at, at_pc, List.countP_cons, beq_iff_eq]
      omega
    | succ i =>
      rcases ih i c with h | ⟨k', hk', h2, h3⟩
      · left
        simp only [advance_at, h]
      · right
        refine ⟨k', List.mem_cons_of_mem _ hk', h2, fun pc => ?_⟩
        have := h3 pc
        simp only [advance_at, at_pc, List.countP_cons, beq_iff_eq] at this ⊢
        omega

/-- The steps of a `disconnect` call, taken one after the other with nothing
in between, are the function `disconnect`. -/
theorem advance_times_disconnect (reason : String) (r : Bool) (c : Connection) :
    advance_times 4 ({ kind := Kind.full r, reason := reason, pc := Pc.entry }, c) =
      ({ kind := Kind.full r, reason := reason, pc := Pc.returned }, disconnect reason r c) := by
  cases h : has_flag c.disconnectFlags DISCONNECT_STARTED <;>
    simp [advance_times, Call.advance, disconnect, disconnect_to_join, h]

/-- The one step of a `disconnect_from_outside` call is the function
`disconnect_from_outside`. -/
theorem advance_times_outside (reason : String) (c : Connection) :
    advance_times 1 ({ kind := Kind.from_outside, reason := reason, pc := Pc.entry }, c) =
      ({ kind := Kind.from_outside, reason := reason, pc := Pc.returned },
        disconnect_from_outside reason c) := by
  simp [advance_times, Call.advance]

/-- The prints and half-closes of each step of the protocol. -/
theorem protocol_step_counts (reason : String) (c : Connection) :
    prints (disconnect_from_outside reason c) =
        prints c + (if flag_bit c.disconnectFlags 1 then 0 else 1) ∧
      half_closes (disconnect_from_outside reason c) =
        half_closes c + (if flag_bit c.disconnectFlags 1 then 0 else 1) ∧
      prints (disconnect_start c).2 = prints c ∧
      half_closes (disconnect_start c).2 = half_closes c ∧
      prints (disconnect_print_and_close reason c) =
        prints c + (if flag_bit c.disconnectFlags 1 then 0 else 1) ∧
      half_closes (disconnect_print_and_close reason c) =
        half_closes c + (if flag_bit c.disconnectFlags 1 then 0 else 1) ∧
      prints (disconnect_finish c) = prints c ∧
      half_closes (disconnect_finish c) = half_closes c := by
  simp only [prints, half_closes, ← flag_bits.2.1]
  cases hp : has_flag c.disconnectFlags DISCONNECT_PRINT_AND_CLOSE <;>
    simp [List.count_append, List.countP_append, hp]

/-- The marking and the join neither print nor half-close. -/
theorem mark_join_counts (r : Bool) (c : Connection) :
    prints (disconnect_join r (disconnect_mark r c)) = prints c ∧
      half_closes (disconnect_join r (disconnect_mark r c)) = half_closes c := by
  cases r <;> simp [prints, half_closes, List.count_append, List.countP_append]

/-- The invariant is kept when a `disconnect_from_outside` runs. -/
theorem coordinated_outside {p0 q0 : Nat} {b0 b1 b2 b3 b4 : Bool} {nA nC nJ nR p q : Nat}
    (h : Coordinated p0 q0 b0 b1 b2 b3 b4 nA nC nJ nR p q) :
    Coordinated p0 q0 b0 true b2 b3 b4 nA nC nJ (nR + 1) (p + if b1 then 0 else 1)
      (q + if b1 then 0 else 1) := by
  unfold Coordinated at *
  revert h
  cases b0 <;> cases b1 <;> cases b2 <;> cases b3 <;> cases b4 <;> simp <;> omega

/-- The invariant is kept when a `disconnect` finds Started clear. -/
theorem coordinated_win {p0 q0 : Nat} {b1 b2 b3 b4 : Bool} {nA nC nJ nR p q : Nat}
    (h : Coordinated p0 q0 false b1 b2 b3 b4 nA nC nJ nR p q) :
    Coordinated p0 q0 true b1 b2 b3 b4 (nA + 1) nC nJ nR p q := by
  unfold Coordinated at *
  revert h
  cases b1 <;> cases b2 <;> cases b3 <;> cases b4 <;> simp <;> omega

/-- The invariant is kept when a `disconnect` finds Started set and returns. -/
theorem coordinated_lose {p0 q0 : Nat} {b1 b2 b3 b4 : Bool} {nA nC nJ nR p q : Nat}
    (h : Coordinated p0 q0 true b1 b2 b3 b4 nA nC nJ nR p q) :
    Coordinated p0 q0 true b1 b2 b3 b4 nA nC nJ (nR + 1) p q := by
  unfold Coordinated at *
  revert h
  cases b1 <;> cases b2 <;> cases b3 <;> cases b4 <;> simp <;> omega

/-- The invariant is kept by the print-and-close statement of `disconnect`. -/
theorem coordinated_close {p0 q0 : Nat} {b0 b1 b2 b3 b4 : Bool} {nA nC nJ nR p q : Nat}
    (h : Coordinated p0 q0 b0 b1 b2 b3 b4 (nA + 1) nC nJ nR p q) :
    Coordinated p0 q0 b0 true b2 b3 b4 nA (nC + 1) nJ nR (p + if b1 then 0 else 1)
      (q + if b1 then 0 else 1) := by
  unfold Coordinated at *
  revert h
  cases b0 <;> cases b1 <;> cases b2 <;> cases b3 <;> cases b4 <;> simp <;> omega

/-- The invariant is kept by the marking and the join of `disconnect`. -/
theorem coordinated_mark {p0 q0 : Nat} {b0 b1 b2 b3 b4 : Bool} {nA nC nJ nR p q : Nat} (r : Bool)
    (h : Coordinated p0 q0 b0 b1 b2 b3 b4 nA (nC + 1) nJ nR p q) :
    Coordinated p0 q0 b0 b1 (b2 || !r) (b3 || r) b4 nA nC (nJ + 1) nR p q := by
  unfold Coordinated at *
  revert h
  cases r <;> cases b0 <;> cases b1 <;> cases b2 <;> cases b3 <;> cases b4 <;> simp <;> omega

/-- The invariant is kept by the tail of `disconnect`. -/
theorem coordinated_finish {p0 q0 : Nat} {b0 b1 b2 b3 b4 : Bool} {nA nC nJ nR p q : Nat}
    (h : Coordinated p0 q0 b0 b1 b2 b3 b4 nA nC (nJ + 1) nR p q) :
    Coordinated p0 q0 b0 b1 b2 b3 true nA nC nJ (nR + 1) p q := by
  unfold Coordinated at *
  revert h
  cases b0 <;> cases b1 <;> cases b2 <;> cases b3 <;> cases b4 <;> simp <;> omega

/-- One step of one call keeps the protocol invariant. -/
theorem coordinated_advance (p0 q0 : Nat) (k : Call) (c : Connection)
    (nA nC nJ nR nA' nC' nJ' nR' : Nat)
    (hA : nA' + (if k.pc = Pc.started then 1 else 0) =
      nA + (if (k.advance c).1.pc = Pc.started then 1 else 0))
    (hC : nC' + (if k.pc = Pc.closed then 1 else 0) =
      nC + (if (k.advance c).1.pc = Pc.closed then 1 else 0))
    (hJ : nJ' + (if k.pc = Pc.joined then 1 else 0) =
      nJ + (if (k.advance c).1.pc = Pc.joined then 1 else 0))
    (hR : nR' + (if k.pc = Pc.returned then 1 else 0) =
      nR + (if (k.advance c).1.pc = Pc.returned then 1 else 0))
    (h : coordinated_with p0 q0 c nA nC nJ nR) :
    coordinated_with p0 q0 (k.advance c).2 nA' nC' nJ' nR' := by
  obtain ⟨kind, reason, pc⟩ := k
  unfold coordinated_with at *
  cases kind with
  | from_outside =>
    cases pc <;> simp only [Call.advance] at hA hC hJ hR ⊢ <;> simp at hA hC hJ hR
    · obtain rfl : nA' = nA := by omega
      obtain rfl : nC' = nC := by omega
      obtain rfl : nJ' = nJ := by omega
      obtain rfl : nR' = nR + 1 := by omega
      convert coordinated_outside h using 1 <;>
        simp [flag_bits, protocol_step_counts]
    all_goals
      obtain rfl : nA' = nA := by omega
      obtain rfl : nC' = nC := by omega
      obtain rfl : nJ' = nJ := by omega
      obtain rfl : nR' = nR := by omega
      exact h
  | full r =>
    cases pc with
    | entry =>
      cases h0 : has_flag c.disconnectFlags DISCONNECT_STARTED
      · have h0' : flag_bit c.disconnectFlags 0 = false := by rwa [← flag_bits.1]
        simp only [Call.advance, disconnect_start_fields, h0] at hA hC hJ hR ⊢
        simp at hA hC hJ hR
        obtain rfl : nA' = nA + 1 := by omega
        obtain rfl : nC' = nC := by omega
        obtain rfl : nJ' = nJ := by omega
        obtain rfl : nR' = nR := by omega
        rw [h0'] at h
        convert coordinated_win h using 1 <;> simp [flag_bits, protocol_step_counts]
      · have h0' : flag_bit c.disconnectFlags 0 = true := by rwa [← flag_bits.1]
        simp only [Call.advance, disconnect_start_fields, h0] at hA hC hJ hR ⊢
        simp at hA hC hJ hR
        obtain rfl : nA' = nA := by omega
        obtain rfl : nC' = nC := by omega
        obtain rfl : nJ' = nJ := by omega
        obtain rfl : nR' = nR + 1 := by omega
        rw [h0'] at h
        convert coordinated_lose h using 1 <;> simp [flag_bits, protocol_step_counts]
    | started =>
      simp only [Call.advance] at hA hC hJ hR ⊢
      simp at hA hC hJ hR
      obtain rfl : nA = nA' + 1 := by omega
      obtain rfl : nC' = nC + 1 := by omega
      obtain rfl : nJ' = nJ := by omega
      obtain rfl : nR' = nR := by omega
      convert coordinated_close h using 1 <;> simp [flag_bits, protocol_step_counts]
    | closed =>
      simp only [Call.advance] at hA hC hJ hR ⊢
      simp at hA hC hJ hR
      obtain rfl : nA' = nA := by omega
      obtain rfl : nC = nC' + 1 := by omega
      obtain rfl : nJ' = nJ + 1 := by omega
      obtain rfl : nR' = nR := by omega
      convert coordinated_mark r h using 1 <;>
        cases r <;> simp [flag_bits, mark_join_counts]
    | joined =>
      simp only [Call.advance] at hA hC hJ hR ⊢
      simp at hA hC hJ hR
      obtain rfl : nA' = nA := by omega
      obtain rfl : nC' = nC := by omega
      obtain rfl : nJ = nJ' + 1 := by omega
      obtain rfl : nR' = nR + 1 := by omega
      convert coordinated_finish h using 1 <;> simp [flag_bits, protocol_step_counts]
    | returned =>
      simp only [Call.advance] at hA hC hJ hR ⊢
      obtain rfl : nA' = nA := by omega
      obtain rfl : nC' = nC := by omega
      obtain rfl : nJ' = nJ := by omega
      obtain rfl : nR' = nR := by omega
      exact h

/-- What the accounting does to the throttle flag and to the trace. -/
theorem account_throttle (m : Msg) (c : Connection) :
    (account m c).initial_outbound_throttle =
        (c.initial_outbound_throttle && decide ((account m c).total_waiting_size ≠ 0)) ∧
      (account m c).trace =
        (if c.initial_outbound_throttle = true ∧ (account m c).total_waiting_size ≠ 0 then
          c.trace ++ [Event.usleep (20 * 1000)]
         else c.trace) := by
  rw [(account_fields m c).2.2.2.1]
  simp only [account]
  split_ifs with h1 h2 <;> simp_all

/-- The state the accounting of a dequeue step starts from. -/
theorem dequeue_eq_account (c d : Connection) (m : Msg) (h : dequeue c = some (m, d)) :
    ∃ e, d = account m e ∧ e.disconnectFlags = c.disconnectFlags ∧
      e.initial_outbound_throttle = c.initial_outbound_throttle ∧
      e.total_waiting_size = c.total_waiting_size ∧ e.trace = c.trace := by
  rcases c with ⟨f, S, P, th, t, tr⟩
  cases P with
  | cons p P =>
    simp only [dequeue, pop_message, Option.map_some', Option.some.injEq, Prod.mk.injEq] at h
    obtain ⟨rfl, rfl⟩ := h
    exact ⟨_, rfl, rfl, rfl, rfl, rfl⟩
  | nil =>
    cases S with
    | nil => simp [dequeue, pop_message] at h
    | cons q S =>
      simp only [dequeue, pop_message, Option.map_some', Option.some.injEq, Prod.mk.injEq] at h
      obtain ⟨rfl, rfl⟩ := h
      exact ⟨_, rfl, rfl, rfl, rfl, rfl⟩

/-- The writer's step leaves the flag word, the prints and the half-closes
alone, and once the throttle flag is false it neither sets it nor delays. -/
theorem writer_send_frame (c : Connection) :
    (writer_send c).disconnectFlags = c.disconnectFlags ∧
      prints (writer_send c) = prints c ∧
      half_closes (writer_send c) = half_closes c ∧
      (c.initial_outbound_throttle = false →
        (writer_send c).initial_outbound_throttle = false ∧
          delays (writer_send c) = delays c) ∧
      (c.disconnectFlags ≠ 0 → writer_send c = c) := by
  unfold writer_send net_write_locked
  split_ifs with h1 h2
  · simp
  · simp
  · cases hd : dequeue c with
    | none => simp
    | some r =>
      obtain ⟨m, d⟩ := r
      obtain ⟨e, rfl, he1, he2, he3, he4⟩ := dequeue_eq_account c d m hd
      have ha := account_fields m e
      have ht := account_throttle m e
      refine ⟨by simp [ha.1, he1], ?_, ?_, ?_, fun hne => absurd (not_not.1 h2) hne⟩
      · have := ha.2.2.2.2.2.1
        simp only [prints] at this ⊢
        simp [List.countP_append, this, he4]
      · have := ha.2.2.2.2.2.2
        simp only [half_closes] at this ⊢
        simp [List.count_append, this, he4]
      · intro hth
        rw [he2.trans hth] at ht
        refine ⟨by simpa using ht.1, ?_⟩
        simp only [delays, emit_fields, ht.2]
        simp [List.countP_append, he4]

/-- An enqueue leaves the flag word, the prints, the half-closes, the throttle
flag and the delays alone. -/
theorem enqueue_frame (primary : Bool) (m : Msg) (c : Connection) :
    (enqueue primary m c).disconnectFlags = c.disconnectFlags ∧
      prints (enqueue primary m c) = prints c ∧
      half_closes (enqueue primary m c) = half_closes c ∧
      (enqueue primary m c).initial_outbound_throttle = c.initial_outbound_throttle ∧
      delays (enqueue primary m c) = delays c := by
  cases primary <;>
    simp [enqueue, prints, half_closes, delays, List.countP_append, List.count_append]

/-- One step of a call leaves the throttle flag, the delays and the sent
messages alone and only adds bits to the flag word. -/
theorem advance_frame (k : Call) (c : Connection) :
    (k.advance c).2.initial_outbound_throttle = c.initial_outbound_throttle ∧
      delays (k.advance c).2 = delays c ∧
      sent (k.advance c).2 = sent c ∧
      ∀ i, flag_bit c.disconnectFlags i = true →
        flag_bit (k.advance c).2.disconnectFlags i = true := by
  obtain ⟨kind, reason, pc⟩ := k
  have hor : ∀ (f m i : Nat), flag_bit f i = true → flag_bit (f ||| m) i = true := by
    intro f m i h
    simp only [flag_bit, Nat.testBit_or] at h ⊢
    simp [h]
  cases kind with
  | from_outside =>
    cases pc <;> simp only [Call.advance] <;>
      refine ⟨by simp, ?_, ?_, fun i h => by first | exact h | (simp only [disconnect_from_outside_fields]; exact hor _ _ _ h)⟩ <;>
      simp only [delays, sent, disconnect_from_outside_fields] <;>
      split_ifs <;> simp [List.countP_append, List.filterMap_append]
  | full r =>
    cases pc <;> simp only [Call.advance] <;>
      refine ⟨by simp, ?_, ?_, fun i h => by first | exact h | (simp only [disconnect_start_fields, disconnect_print_and_close_fields, disconnect_join_fields, disconnect_mark_fields, disconnect_finish_fields]; exact hor _ _ _ h)⟩ <;>
      simp only [delays, sent, disconnect_start_fields, disconnect_print_and_close_fields,
        disconnect_join_fields, disconnect_mark_fields, disconnect_finish_fields] <;>
      split_ifs <;> simp [List.countP_append, List.filterMap_append]

/-- Advancing a call does not change the number of calls. -/
theorem advance_at_length : ∀ (i : Nat) (calls : List Call) (c : Connection),
    (advance_at i calls c).1.length = calls.length := by
  intro i calls
  induction calls generalizing i with
  | nil => intro c; cases i <;> rfl
  | cons k ks ih =>
    intro c
    cases i with
    | zero => rfl
    | succ i => simp [advance_at, ih i c]

/-- Every step of the system keeps the protocol invariant. -/
theorem coordinated_step (p0 q0 : Nat) (s : System) (a : Action) (h : coordinated p0 q0 s) :
    coordinated p0 q0 (s.step a) := by
  cases a with
  | advance i =>
    rcases advance_at_spec i s.calls s.conn with he | ⟨k, _, h2, h3⟩
    · simp only [System.step, he]
      exact h
    · simp only [System.step, coordinated, h2]
      exact coordinated_advance p0 q0 k s.conn _ _ _ _ _ _ _ _ (h3 Pc.started) (h3 Pc.closed)
        (h3 Pc.joined) (h3 Pc.returned) h
  | writer =>
    have hw := writer_send_frame s.conn
    simp only [System.step, coordinated, coordinated_with, hw.1, hw.2.1, hw.2.2.1]
    exact h
  | enqueue p m =>
    have hw := enqueue_frame p m s.conn
    simp only [System.step, coordinated, coordinated_with, hw.1, hw.2.1, hw.2.2.1]
    exact h

/-- Every schedule keeps the protocol invariant. -/
theorem coordinated_run (p0 q0 : Nat) (schedule : List Action) :
    ∀ s, coordinated p0 q0 s → coordinated p0 q0 (s.run schedule) := by
  induction schedule with
  | nil => exact fun s h => h
  | cons a as ih => exact fun s h => ih _ (coordinated_step p0 q0 s a h)

/-- Calls still to begin stand at no later point. -/
theorem at_pc_start (pc : Pc) (hpc : pc ≠ Pc.entry) (c : Connection)
    (calls : List (Kind × String)) : at_pc pc (System.start c calls).calls = 0 := by
  simp only [at_pc, System.start, List.countP_eq_zero, List.mem_map]
  rintro k ⟨_, _, rfl⟩
  simpa using hpc.symm

/-- The protocol invariant holds before any call has begun. -/
theorem coordinated_start (c : Connection) (calls : List (Kind × String))
    (hf : c.disconnectFlags = 0) :
    coordinated (prints c) (half_closes c) (System.start c calls) := by
  unfold coordinated coordinated_with
  rw [at_pc_start _ (by decide), at_pc_start _ (by decide), at_pc_start _ (by decide),
    at_pc_start _ (by decide)]
  simp [System.start, hf, flag_bits, Coordinated]

/-- The protocol invariant holds in every reachable state. -/
theorem coordinated_reachable (c : Connection) (calls : List (Kind × String))
    (schedule : List Action) (hf : c.disconnectFlags = 0) :
    coordinated (prints c) (half_closes c) ((System.start c calls).run schedule) :=
  coordinated_run _ _ schedule _ (coordinated_start c calls hf)

/-- No step of the system changes the number of calls. -/
theorem run_length (schedule : List Action) :
    ∀ s : System, (s.run schedule).calls.length = s.calls.length := by
  induction schedule with
  | nil => exact fun s => rfl
  | cons a as ih =>
    intro s
    refine (ih _).trans ?_
    cases a <;> simp [System.step, advance_at_length]

/-- No step of the system clears a flag bit. -/
theorem step_flags_grow (s : System) (a : Action) (i : Nat)
    (h : flag_bit s.conn.disconnectFlags i = true) :
    flag_bit (s.step a).conn.disconnectFlags i = true := by
  cases a with
  | advance j =>
    rcases advance_at_spec j s.calls s.conn with he | ⟨k, _, h2, _⟩
    · simpa only [System.step, he] using h
    · simp only [System.step, h2]
      exact (advance_frame k s.conn).2.2.2 i h
  | writer => simpa only [System.step, (writer_send_frame s.conn).1] using h
  | enqueue p m => simpa only [System.step, (enqueue_frame p m s.conn).1] using h

/-- Once the throttle flag is false, no step of the system sets it or delays. -/
theorem step_throttle_off (s : System) (a : Action)
    (h : s.conn.initial_outbound_throttle = false) :
    (s.step a).conn.initial_outbound_throttle = false ∧
      delays (s.step a).conn = delays s.conn := by
  cases a with
  | advance j =>
    rcases advance_at_spec j s.calls s.conn with he | ⟨k, _, h2, _⟩
    · simp only [System.step, he]
      exact ⟨h, trivial⟩
    · simp only [System.step, h2]
      exact ⟨(advance_frame k s.conn).1.trans h, (advance_frame k s.conn).2.1⟩
  | writer => exact (writer_send_frame s.conn).2.2.2.1 h
  | enqueue p m =>
    exact ⟨(enqueue_frame p m s.conn).2.2.2.1.trans h, (enqueue_frame p m s.conn).2.2.2.2⟩

/-- Once the throttle flag is false, no schedule sets it or delays. -/
theorem run_throttle_off (schedule : List Action) :
    ∀ s : System, s.conn.initial_outbound_throttle = false →
      (s.run schedule).conn.initial_outbound_throttle = false ∧
        delays (s.run schedule).conn = delays s.conn := by
  induction schedule with
  | nil => exact fun s h => ⟨h, rfl⟩
  | cons a as ih =>
    intro s h
    have h1 := step_throttle_off s a h
    have h2 := ih _ h1.1
    exact ⟨h2.1, h2.2.trans h1.2⟩

/-- When every call has returned, none stands after the Started test and all
are counted as returned. -/
theorem at_pc_all_returned (calls : List Call) (h : ∀ k ∈ calls, k.pc = Pc.returned) :
    at_pc Pc.started calls = 0 ∧ at_pc Pc.returned calls = calls.length := by
  constructor
  · simp only [at_pc, List.countP_eq_zero]
    intro k hk
    simp [h k hk]
  · simp only [at_pc, List.countP_eq_length]
    intro k hk
    simp [h k hk]

/-- A call that has left its entry is counted at one of the later points. -/
theorem at_pc_pos_of_mem (calls : List Call) (k : Call) (hk : k ∈ calls)
    (hpc : k.pc ≠ Pc.entry) :
    1 ≤ at_pc Pc.started calls + at_pc Pc.closed calls + at_pc Pc.joined calls +
      at_pc Pc.returned calls := by
  have hpos : ∀ pc, k.pc = pc → 1 ≤ at_pc pc calls := by
    intro pc h
    exact List.countP_pos_iff.2 ⟨k, hk, by simp [h]⟩
  rcases hk' : k.pc with _ | _ | _ | _ | _
  · exact absurd hk' hpc
  · have := hpos _ hk'; omega
  · have := hpos _ hk'; omega
  · have := hpos _ hk'; omega
  · have := hpos _ hk'; omega

/-! ## The claims about interleaved calls -/

/-- The counts of prints and half-closes in a reachable state. -/
theorem prints_in_reachable_state (c : Connection) (calls : List (Kind × String))
    (schedule : List Action) (hf : c.disconnectFlags = 0) :
    prints ((System.start c calls).run schedule).conn =
        prints c +
          (if has_flag ((System.start c calls).run schedule).conn.disconnectFlags
            DISCONNECT_PRINT_AND_CLOSE then 1 else 0) ∧
      half_closes ((System.start c calls).run schedule).conn =
        half_closes c +
          (if has_flag ((System.start c calls).run schedule).conn.disconnectFlags
            DISCONNECT_PRINT_AND_CLOSE then 1 else 0) ∧
      ((∀ k ∈ ((System.start c calls).run schedule).calls, k.pc = Pc.returned) →
        calls ≠ [] →
        prints ((System.start c calls).run schedule).conn = prints c + 1 ∧
          half_closes ((System.start c calls).run schedule).conn = half_closes c + 1) ∧
      (calls = [] →
        prints ((System.start c calls).run schedule).conn = prints c ∧
          half_closes ((System.start c calls).run schedule).conn = half_closes c) := by
  have hinv := coordinated_reachable c calls schedule hf
  have hlen := run_length schedule (System.start c calls)
  generalize (System.start c calls).run schedule = s at hinv hlen ⊢
  simp only [System.start, List.length_map] at hlen
  unfold coordinated coordinated_with Coordinated at hinv
  obtain ⟨hp, hq, hR, -, hA, -, -, -, -, -, hany⟩ := hinv
  rw [flag_bits.2.1]
  refine ⟨hp, hq, ?_, ?_⟩
  · intro hall hne
    obtain ⟨h1, h2⟩ := at_pc_all_returned s.calls hall
    have hpos : 1 ≤ calls.length := List.length_pos.2 hne
    have hb1 : flag_bit s.conn.disconnectFlags 1 = true := by
      rcases hR (by omega) with h | h
      · exact h
      · exact hA h h1
    rw [hp, hq, hb1]
    exact ⟨rfl, rfl⟩
  · intro hnil
    have h0 : s.calls = [] := List.length_eq_zero.1 (by rw [hlen, hnil]; rfl)
    have hb1 : flag_bit s.conn.disconnectFlags 1 = false := by
      by_contra hb
      have hb1 : flag_bit s.conn.disconnectFlags 1 = true := by simpa using hb
      have := hany (by simp [hb1])
      simp [h0, at_pc] at this
    rw [hp, hq, hb1]
    exact ⟨rfl, rfl⟩

/-- A step of a call leaves it at a point its entry point has. -/
theorem advance_well_formed (k : Call) (c : Connection) (h : k.well_formed) :
    (k.advance c).1.well_formed := by
  obtain ⟨kind, reason, pc⟩ := k
  cases kind <;> cases pc <;> simp_all [Call.well_formed, Call.advance]

/-- Four steps take any call to its return. -/
theorem advance_times_returns (k : Call) (c : Connection) (h : k.well_formed) :
    (advance_times 4 (k, c)).1.pc = Pc.returned := by
  obtain ⟨kind, reason, pc⟩ := k
  cases kind with
  | from_outside =>
    cases pc <;> simp_all [Call.well_formed, advance_times, Call.advance]
  | full r =>
    cases pc with
    | entry =>
      cases h0 : has_flag c.disconnectFlags DISCONNECT_STARTED <;>
        simp [advance_times, Call.advance, h0]
    | started => simp [advance_times, Call.advance]
    | closed => simp [advance_times, Call.advance]
    | joined => simp [advance_times, Call.advance]
    | returned => simp [advance_times, Call.advance]

/-- After a call was advanced, every call is an old one or the advanced one. -/
theorem advance_at_mem : ∀ (i : Nat) (calls : List Call) (c : Connection) (k' : Call),
    k' ∈ (advance_at i calls c).1 → k' ∈ calls ∨ ∃ k ∈ calls, k' = (k.advance c).1 := by
  intro i calls
  induction calls generalizing i with
  | nil => intro c k' h; cases i <;> simp [advance_at] at h
  | cons k ks ih =>
    intro c k' h
    cases i with
    | zero =>
      simp only [advance_at, List.mem_cons] at h
      rcases h with rfl | h
      · exact Or.inr ⟨k, List.mem_cons_self _ _, rfl⟩
      · exact Or.inl (List.mem_cons_of_mem _ h)
    | succ i =>
      simp only [advance_at, List.mem_cons] at h
      rcases h with rfl | h
      · exact Or.inl (List.mem_cons_self _ _)
      · rcases ih i c k' h with h1 | ⟨k0, hk0, rfl⟩
        · exact Or.inl (List.mem_cons_of_mem _ h1)
        · exact Or.inr ⟨k0, List.mem_cons_of_mem _ hk0, rfl⟩

/-- Every step of the system leaves every call at a point its entry point has. -/
theorem step_well_formed (s : System) (a : Action) (h : ∀ k ∈ s.calls, k.well_formed) :
    ∀ k ∈ (s.step a).calls, k.well_formed := by
  cases a with
  | advance i =>
    intro k' hk'
    rcases advance_at_mem i s.calls s.conn k' hk' with h1 | ⟨k, hk, rfl⟩
    · exact h k' h1
    · exact advance_well_formed k s.conn (h k hk)
  | writer => exact h
  | enqueue p m => exact h

/-- Every schedule leaves every call at a point its entry point has. -/
theorem run_well_formed (schedule : List Action) :
    ∀ s : System, (∀ k ∈ s.calls, k.well_formed) →
      ∀ k ∈ (s.run schedule).calls, k.well_formed := by
  induction schedule with
  | nil => exact fun s h => h
  | cons a as ih => exact fun s h => ih _ (step_well_formed s a h)

/-- Calls still to begin stand at their entry. -/
theorem start_well_formed (c : Connection) (calls : List (Kind × String)) :
    ∀ k ∈ (System.start c calls).calls, k.well_formed := by
  intro k hk
  simp only [System.start, List.mem_map] at hk
  obtain ⟨_, _, rfl⟩ := hk
  exact fun _ => Or.inl rfl

/-- A schedule in two parts is run part after part. -/
theorem run_append (s : System) (first rest : List Action) :
    s.run (first ++ rest) = (s.run first).run rest := by
  simp [System.run, List.foldl_append]

/-- Steps of the first call, taken in a row. -/
theorem run_advance_head : ∀ (n : Nat) (k : Call) (ks : List Call) (c : Connection),
    System.run { conn := c, calls := k :: ks } (List.replicate n (Action.advance 0)) =
      { conn := (advance_times n (k, c)).2, calls := (advance_times n (k, c)).1 :: ks } := by
  intro n
  induction n with
  | zero => intro k ks c; rfl
  | succ n ih =>
    intro k ks c
    simp only [List.replicate_succ, System.run, List.foldl_cons, System.step, advance_at,
      advance_times]
    exact ih _ ks _

/-- A schedule for the later calls does to them what it does without the
first call, and leaves the first call alone. -/
theorem run_shift : ∀ (schedule : List Action) (k : Call) (ks : List Call) (c : Connection),
    System.run { conn := c, calls := k :: ks } (schedule.map Action.shift) =
      { conn := (System.run { conn := c, calls := ks } schedule).conn,
        calls := k :: (System.run { conn := c, calls := ks } schedule).calls } := by
  intro schedule
  induction schedule with
  | nil => intro k ks c; rfl
  | cons a as ih =>
    intro k ks c
    cases a with
    | advance i =>
      simp only [List.map_cons, Action.shift, System.run, List.foldl_cons, System.step,
        advance_at]
      exact ih k _ _
    | writer =>
      simp only [List.map_cons, Action.shift, System.run, List.foldl_cons, System.step]
      exact ih k _ _
    | enqueue p m =>
      simp only [List.map_cons, Action.shift, System.run, List.foldl_cons, System.step]
      exact ih k _ _

/-- The sequential schedule takes every call to its return. -/
theorem sequential_schedule_returns : ∀ (calls : List Call) (c : Connection),
    (∀ k ∈ calls, k.well_formed) →
    ∀ k ∈ (System.run { conn := c, calls := calls } (sequential_schedule calls.length)).calls,
      k.pc = Pc.returned := by
  intro calls
  induction calls with
  | nil => intro c _ k hk; simp [sequential_schedule, System.run] at hk
  | cons k0 ks ih =>
    intro c hwf k hk
    simp only [List.length_cons, sequential_schedule, run_append, run_advance_head,
      run_shift, List.mem_cons] at hk
    rcases hk with rfl | hk
    · exact advance_times_returns k0 c (hwf k0 (List.mem_cons_self _ _))
    · exact ih _ (fun k' hk' => hwf k' (List.mem_cons_of_mem _ hk')) k hk

/-- From every reachable state the sequential schedule takes every call to
its return. -/
theorem calls_return (c : Connection) (calls : List (Kind × String))
    (schedule : List Action) :
    ∀ k ∈ ((System.start c calls).run (schedule ++ sequential_schedule calls.length)).calls,
      k.pc = Pc.returned := by
  have hwf := run_well_formed schedule _ (start_well_formed c calls)
  have hlen := run_length schedule (System.start c calls)
  simp only [System.start, List.length_map] at hlen
  rw [run_append, ← hlen]
  exact sequential_schedule_returns _ _ hwf

/-- C1: on a connection with no flag set, let any number of `disconnect` and
`disconnect_from_outside` calls run, interleaved in any way at their atomic
operations on the flag word, together with writer steps and enqueues. In
every state reached the number of diagnostic lines printed and the number of
`shutdown(sock, SHUT_RDWR)` calls are both 1 if PrintAndClose is set and 0 if
it is clear; when every call has returned and there was at least one call
both are 1; with no call at all both are 0. The calls do return: from every
state reached, letting each call take its remaining steps brings every call
to its return, and then, if there was at least one call, exactly one line
has been printed and exactly one half-close made. (Counts are taken from
the state the calls started in.) -/
theorem print_and_half_close_once (c : Connection) (calls : List (Kind × String))
    (schedule : List Action) (hf : c.disconnectFlags = 0) :
    prints ((System.start c calls).run schedule).conn =
        prints c +
          (if has_flag ((System.start c calls).run schedule).conn.disconnectFlags
            DISCONNECT_PRINT_AND_CLOSE then 1 else 0) ∧
      half_closes ((System.start c calls).run schedule).conn =
        half_closes c +
          (if has_flag ((System.start c calls).run schedule).conn.disconnectFlags
            DISCONNECT_PRINT_AND_CLOSE then 1 else 0) ∧
      ((∀ k ∈ ((System.start c calls).run schedule).calls, k.pc = Pc.returned) →
        calls ≠ [] →
        prints ((System.start c calls).run schedule).conn = prints c + 1 ∧
          half_closes ((System.start c calls).run schedule).conn = half_closes c + 1) ∧
      (calls = [] →
        prints ((System.start c calls).run schedule).conn = prints c ∧
          half_closes ((System.start c calls).run schedule).conn = half_closes c) ∧
      (∀ k ∈ ((System.start c calls).run
          (schedule ++ sequential_schedule calls.length)).calls, k.pc = Pc.returned) ∧
      (calls ≠ [] →
        prints ((System.start c calls).run
            (schedule ++ sequential_schedule calls.length)).conn = prints c + 1 ∧
          half_closes ((System.start c calls).run
            (schedule ++ sequential_schedule calls.length)).conn = half_closes c + 1) := by
  have h := prints_in_reachable_state c calls schedule hf
  have hret := calls_return c calls schedule
  exact ⟨h.1, h.2.1, h.2.2.1, h.2.2.2, hret,
    (prints_in_reachable_state c calls (schedule ++ sequential_schedule calls.length)
      hf).2.2.1 hret⟩

/-- An instance of `print_and_half_close_once`: an outside abort racing with
a `disconnect` from the reader and one from the writer; once every call has
returned one line has been printed and one half-close made. -/
theorem print_and_half_close_once_witness :
    construct.disconnectFlags = 0 ∧
      prints ((System.start construct
          [(Kind.from_outside, "abort"), (Kind.full true, "eof"),
            (Kind.full false, "disconnect started elsewhere")]).run
          ([Action.advance 1, Action.advance 0, Action.advance 2, Action.advance 1] ++
            sequential_schedule 3)).conn = prints construct + 1 ∧
      half_closes ((System.start construct
          [(Kind.from_outside, "abort"), (Kind.full true, "eof"),
            (Kind.full false, "disconnect started elsewhere")]).run
          ([Action.advance 1, Action.advance 0, Action.advance 2, Action.advance 1] ++
            sequential_schedule 3)).conn = half_closes construct + 1 :=
  ⟨rfl,
    (print_and_half_close_once construct
      [(Kind.from_outside, "abort"), (Kind.full true, "eof"),
        (Kind.full false, "disconnect started elsewhere")]
      [Action.advance 1, Action.advance 0, Action.advance 2, Action.advance 1] rfl).2.2.2.2.2
      (List.cons_ne_nil _ _)⟩

/-- C2: a `disconnect` that finds Started (and so both per-thread bits)
clear returns with both queues empty, with Complete, Started and
PrintAndClose set and with exactly one per-thread bit set, FromReadThread
if the caller is the reader and FromWriteThread otherwise. In every state
reached by interleaved calls on a connection that began with no flag set,
Complete set implies Started, PrintAndClose and exactly one per-thread bit
set, and the two per-thread bits are never both set. -/
theorem disconnect_completes (reason : String) (r : Bool) (c : Connection)
    (h0 : has_flag c.disconnectFlags DISCONNECT_STARTED = false)
    (h4 : has_flag c.disconnectFlags DISCONNECT_FROM_WRITE_THREAD = false)
    (h8 : has_flag c.disconnectFlags DISCONNECT_FROM_READ_THREAD = false) :
    (disconnect reason r c).outbound_primary_queue = [] ∧
      (disconnect reason r c).outbound_secondary_queue = [] ∧
      has_flag (disconnect reason r c).disconnectFlags DISCONNECT_COMPLETE = true ∧
      has_flag (disconnect reason r c).disconnectFlags DISCONNECT_STARTED = true ∧
      has_flag (disconnect reason r c).disconnectFlags DISCONNECT_PRINT_AND_CLOSE = true ∧
      has_flag (disconnect reason r c).disconnectFlags DISCONNECT_FROM_READ_THREAD = r ∧
      has_flag (disconnect reason r c).disconnectFlags DISCONNECT_FROM_WRITE_THREAD = (!r) ∧
      ∀ (c0 : Connection) (calls : List (Kind × String)) (schedule : List Action),
        c0.disconnectFlags = 0 →
        (has_flag ((System.start c0 calls).run schedule).conn.disconnectFlags
            DISCONNECT_COMPLETE = true →
          has_flag ((System.start c0 calls).run schedule).conn.disconnectFlags
              DISCONNECT_STARTED = true ∧
            has_flag ((System.start c0 calls).run schedule).conn.disconnectFlags
              DISCONNECT_PRINT_AND_CLOSE = true ∧
            (has_flag ((System.start c0 calls).run schedule).conn.disconnectFlags
                DISCONNECT_FROM_READ_THREAD !=
              has_flag ((System.start c0 calls).run schedule).conn.disconnectFlags
                DISCONNECT_FROM_WRITE_THREAD) = true) ∧
          (has_flag ((System.start c0 calls).run schedule).conn.disconnectFlags
              DISCONNECT_FROM_READ_THREAD &&
            has_flag ((System.start c0 calls).run schedule).conn.disconnectFlags
              DISCONNECT_FROM_WRITE_THREAD) = false := by
  have hfl := disconnect_flags reason r c h0
  rw [flag_bits.2.2.1] at h4
  rw [flag_bits.2.2.2.1] at h8
  refine ⟨?_, ?_, ?_, ?_, ?_, ?_, ?_, ?_⟩
  · rw [disconnect_of_not_started reason r c h0]; simp
  · rw [disconnect_of_not_started reason r c h0]; simp
  · rw [hfl]; simp [flag_bits]
  · rw [hfl]; cases r <;> simp [flag_bits]
  · rw [hfl]; cases r <;> simp [flag_bits]
  · rw [hfl]; cases r <;> simp [flag_bits, h8]
  · rw [hfl]; cases r <;> simp [flag_bits, h4]
  · intro c0 calls schedule hf
    have hinv := coordinated_reachable c0 calls schedule hf
    generalize (System.start c0 calls).run schedule = s at hinv ⊢
    unfold coordinated coordinated_with Coordinated at hinv
    simp only [flag_bits]
    generalize flag_bit s.conn.disconnectFlags 0 = b0 at hinv ⊢
    generalize flag_bit s.conn.disconnectFlags 1 = b1 at hinv ⊢
    generalize flag_bit s.conn.disconnectFlags 2 = b2 at hinv ⊢
    generalize flag_bit s.conn.disconnectFlags 3 = b3 at hinv ⊢
    generalize flag_bit s.conn.disconnectFlags 4 = b4 at hinv ⊢
    generalize at_pc Pc.started s.calls = nA at hinv
    generalize at_pc Pc.closed s.calls = nC at hinv
    generalize at_pc Pc.joined s.calls = nJ at hinv
    generalize at_pc Pc.returned s.calls = nR at hinv
    revert hinv
    cases b0 <;> cases b1 <;> cases b2 <;> cases b3 <;> cases b4 <;> simp <;> omega

/-- An instance of `disconnect_completes`: the reader disconnects a fresh
connection. -/
theorem disconnect_completes_witness :
    has_flag (disconnect "eof" true construct).disconnectFlags DISCONNECT_COMPLETE = true ∧
      has_flag (disconnect "eof" true construct).disconnectFlags
        DISCONNECT_FROM_READ_THREAD = true :=
  ⟨(disconnect_completes "eof" true construct (by decide) (by decide) (by decide)).2.2.1,
    (disconnect_completes "eof" true construct (by decide) (by decide) (by decide)).2.2.2.2.2.1⟩

/-! ## The throttle -/

/-- C8: the throttle flag starts true. A dequeue step subtracts the length of
the popped message from `total_waiting_size` (modulo `2 ^ 32`); it makes the
one `usleep(20 * 1000)` call exactly when the throttle flag is still true and
the new `total_waiting_size` is not zero, and makes no `usleep` otherwise; it
leaves the throttle flag false when the new `total_waiting_size` is zero and
unchanged otherwise. `disconnect`, `disconnect_from_outside` and an enqueue do
not touch the flag, so that from a state in which it is false no sequence of
calls, writer steps and enqueues makes it true again or adds a delay,
whatever `total_waiting_size` becomes. -/
theorem throttle_policy (c d : Connection) (m : Msg) (hd : dequeue c = some (m, d)) :
    construct.initial_outbound_throttle = true ∧
      d.total_waiting_size =
        (((c.total_waiting_size : Int) - (m.length : Int)) % 4294967296).toNat ∧
      d.trace =
        (if c.initial_outbound_throttle = true ∧ d.total_waiting_size ≠ 0 then
          c.trace ++ [Event.usleep (20 * 1000)]
         else c.trace) ∧
      delays d =
        delays c +
          (if c.initial_outbound_throttle = true ∧ d.total_waiting_size ≠ 0 then 1 else 0) ∧
      d.initial_outbound_throttle =
        (c.initial_outbound_throttle && decide (d.total_waiting_size ≠ 0)) ∧
      (d.total_waiting_size = 0 → d.initial_outbound_throttle = false) ∧
      (c.initial_outbound_throttle = false →
        d.initial_outbound_throttle = false ∧ delays d = delays c) ∧
      (∀ reason r e, (disconnect reason r e).initial_outbound_throttle =
        e.initial_outbound_throttle) ∧
      (∀ reason e, (disconnect_from_outside reason e).initial_outbound_throttle =
        e.initial_outbound_throttle) ∧
      (∀ p n e, (enqueue p n e).initial_outbound_throttle = e.initial_outbound_throttle) ∧
      ∀ (s : System) (schedule : List Action), s.conn.initial_outbound_throttle = false →
        (s.run schedule).conn.initial_outbound_throttle = false ∧
          delays (s.run schedule).conn = delays s.conn := by
  obtain ⟨e, rfl, -, he2, he3, he4⟩ := dequeue_eq_account c d m hd
  have ha := account_fields m e
  have ht := account_throttle m e
  have hdel : delays (account m e) =
      delays c +
        (if c.initial_outbound_throttle = true ∧ (account m e).total_waiting_size ≠ 0 then 1
         else 0) := by
    simp only [delays, ht.2, he2, he4]
    split_ifs <;> simp [List.countP_append]
  refine ⟨rfl, by rw [ha.2.2.2.1, he3], by rw [ht.2, he2, he4], hdel, by rw [ht.1, he2], ?_, ?_,
    fun reason r e => (disconnect_frame reason r e).2.1, fun reason e => by simp,
    fun p n e => (enqueue_frame p n e).2.2.2.1, fun s schedule => run_throttle_off schedule s⟩
  · intro h0
    rw [ht.1, h0]
    simp
  · intro hth
    rw [hdel, ht.1, he2, hth]
    simp

/-- An instance of `throttle_policy`: a backlog of six bytes with the
throttle on; the first dequeue, of a one-byte message, delays. -/
theorem throttle_policy_witness :
    dequeue { construct with
        outbound_primary_queue := [[1], [2, 2]]
        outbound_secondary_queue := [[3, 3, 3]]
        total_waiting_size := 6 } =
      some ([1], { construct with
        outbound_primary_queue := [[2, 2]]
        outbound_secondary_queue := [[3, 3, 3]]
        total_waiting_size := 5
        trace := [Event.usleep (20 * 1000)] }) ∧
      delays { construct with
        outbound_primary_queue := [[2, 2]]
        outbound_secondary_queue := [[3, 3, 3]]
        total_waiting_size := 5
        trace := [Event.usleep (20 * 1000)] } =
      delays { construct with
        outbound_primary_queue := [[1], [2, 2]]
        outbound_secondary_queue := [[3, 3, 3]]
        total_waiting_size := 6 } + 1 :=
  ⟨by decide,
    (throttle_policy
      { construct with
        outbound_primary_queue := [[1], [2, 2]]
        outbound_secondary_queue := [[3, 3, 3]]
        total_waiting_size := 6 }
      { construct with
        outbound_primary_queue := [[2, 2]]
        outbound_secondary_queue := [[3, 3, 3]]
        total_waiting_size := 5
        trace := [Event.usleep (20 * 1000)] }
      [1] (by decide)).2.2.2.1⟩

/-! ## The wake message and the writer -/

/-- An iteration that wakes with a flag set calls `disconnect` and returns. -/
theorem net_write_iter_stops (send_result : Msg → Int) (c : Connection)
    (hq : c.outbound_primary_queue ≠ [] ∨ c.outbound_secondary_queue ≠ [])
    (hf : c.disconnectFlags ≠ 0) :
    net_write_iter send_result c =
      (Outcome.returned, disconnect "disconnect started elsewhere" false c) := by
  have hne : ¬ (c.outbound_secondary_queue.length = 0 ∧ c.outbound_primary_queue.length = 0) := by
    rintro ⟨h1, h2⟩
    rw [List.length_eq_zero] at h1 h2
    rcases hq with h | h
    · exact h h2
    · exact h h1
  simp only [net_write_iter, net_write_locked, if_neg hne, hf, ne_eq, not_false_eq_true,
    if_true]

/-- An iteration whose send is not complete calls `disconnect` and returns. -/
theorem net_write_iter_fails (send_result : Msg → Int) (c d : Connection) (m : Msg)
    (hf : c.disconnectFlags = 0) (hd : dequeue c = some (m, d))
    (hs : send_result m ≠ (m.length : Int)) :
    net_write_iter send_result c =
      (Outcome.returned, disconnect "failed to send msg" false (d.emit (Event.send_all m))) := by
  have hne : ¬ (c.outbound_secondary_queue.length = 0 ∧ c.outbound_primary_queue.length = 0) := by
    rintro ⟨h1, h2⟩
    rw [List.length_eq_zero] at h1 h2
    simp [dequeue, pop_message, h1, h2] at hd
  simp only [net_write_iter, net_write_locked, if_neg hne, hf, hd, hs, ne_eq, not_true_eq_false,
    not_false_eq_true, if_false, if_true]

/-- C10: the flag word is not zero whenever a call has left its entry, in
particular while a reader's `disconnect` stands between the push of the wake
message and the clear of the queues, in every state reached by interleaved
calls, writer steps and enqueues on a connection that began with no flag set;
no step clears a flag bit; the state in which `disconnect` pushes the wake
message has Started set. With a flag set the writer's step changes nothing,
and an iteration of `net_write` that wakes with a flag set is a call of
`disconnect` followed by a return: nothing is passed to `send_all` and
`total_waiting_size` is as it was. An iteration whose `send_all` result
differs from the message length is that one send followed by a call of
`disconnect` and a return, and the loop makes no further send. -/
theorem writer_stops_on_disconnect :
    (∀ (c : Connection) (calls : List (Kind × String)) (schedule : List Action),
        c.disconnectFlags = 0 →
        (∃ k ∈ ((System.start c calls).run schedule).calls, k.pc ≠ Pc.entry) →
        ((System.start c calls).run schedule).conn.disconnectFlags ≠ 0) ∧
      (∀ (s : System) (a : Action) (i : Nat), flag_bit s.conn.disconnectFlags i = true →
        flag_bit (s.step a).conn.disconnectFlags i = true) ∧
      (∀ reason c, (disconnect_to_join reason true c).disconnectFlags ≠ 0 ∧
        has_flag (disconnect_to_join reason true c).disconnectFlags DISCONNECT_STARTED = true) ∧
      (∀ s : System, s.conn.disconnectFlags ≠ 0 → (s.step Action.writer) = s) ∧
      (∀ (send_result : Nat → Msg → Int) (fuel : Nat) (c : Connection),
        (c.outbound_primary_queue ≠ [] ∨ c.outbound_secondary_queue ≠ []) →
        c.disconnectFlags ≠ 0 →
        net_write_locked c = (Wake.stop, c) ∧
          net_write_iter (send_result 0) c =
            (Outcome.returned, disconnect "disconnect started elsewhere" false c) ∧
          net_write send_result (fuel + 1) c =
            (Outcome.returned, disconnect "disconnect started elsewhere" false c) ∧
          sent (disconnect "disconnect started elsewhere" false c) = sent c ∧
          (disconnect "disconnect started elsewhere" false c).total_waiting_size =
            c.total_waiting_size) ∧
      (∀ (send_result : Nat → Msg → Int) (fuel : Nat) (c d : Connection) (m : Msg),
        c.disconnectFlags = 0 → dequeue c = some (m, d) →
        send_result 0 m ≠ (m.length : Int) →
        net_write_iter (send_result 0) c =
            (Outcome.returned,
              disconnect "failed to send msg" false (d.emit (Event.send_all m))) ∧
          net_write send_result (fuel + 1) c =
            (Outcome.returned,
              disconnect "failed to send msg" false (d.emit (Event.send_all m))) ∧
          sent (disconnect "failed to send msg" false (d.emit (Event.send_all m))) =
            sent c ++ [m]) := by
  refine ⟨?_, step_flags_grow, ?_, ?_, ?_, ?_⟩
  · intro c calls schedule hf ⟨k, hk, hpc⟩
    have hinv := coordinated_reachable c calls schedule hf
    generalize (System.start c calls).run schedule = s at hinv hk ⊢
    have hpos := at_pc_pos_of_mem s.calls k hk hpc
    unfold coordinated coordinated_with Coordinated at hinv
    obtain ⟨-, -, hR, hS, -⟩ := hinv
    intro h0
    rw [h0] at hR hS
    simp only [flag_bits] at hR hS
    have := (hS trivial).1
    have := hR (by omega)
    simp at this
  · intro reason c
    have h1 : has_flag (disconnect_to_join reason true c).disconnectFlags DISCONNECT_STARTED
        = true := by
      simp [flag_bits]
    refine ⟨?_, h1⟩
    intro h0
    rw [h0] at h1
    simp [flag_bits] at h1
  · intro s hf
    simp only [System.step, (writer_send_frame s.conn).2.2.2.2 hf]
  · intro send_result fuel c hq hf
    have hi := net_write_iter_stops (send_result 0) c hq hf
    have hne : ¬ (c.outbound_secondary_queue.length = 0 ∧
        c.outbound_primary_queue.length = 0) := by
      rintro ⟨h1, h2⟩
      rw [List.length_eq_zero] at h1 h2
      rcases hq with h | h
      · exact h h2
      · exact h h1
    refine ⟨by simp only [net_write_locked, if_neg hne, hf, ne_eq, not_false_eq_true, if_true],
      hi, by simp only [net_write, hi], (disconnect_frame _ _ c).2.2.1,
      (disconnect_frame _ _ c).1⟩
  · intro send_result fuel c d m hf hd hs
    have hi := net_write_iter_fails (send_result 0) c d m hf hd hs
    refine ⟨hi, by simp only [net_write, hi], ?_⟩
    rw [(disconnect_frame _ _ _).2.2.1, sent_emit_send_all]
    obtain ⟨e, rfl, -, -, -, he4⟩ := dequeue_eq_account c d m hd
    rw [(account_fields m e).2.2.2.2.1]
    simp only [sent, he4]

end RelayNode
